import Mathlib

/-!
Shallow embedding of the clipboard-server repository (Go + Gin + GORM) for
verifying the frozen claims about its synchronization, credential and
parsing logic.

Modelling conventions:
* The relational store (SQLite via GORM) is modelled as an explicit list of
  rows plus a freshness counter; every handler is a pure function from the
  store state and the already-bound request payload to a response and a new
  store state.  Creation appends at the end of the list; GORM Save by
  primary key is a map that replaces the row with the matching id.
* uuid.New() is modelled as an injective function of the freshness counter.
* Machine integers: byte sizes and counts are Nat, timestamps and the
  int-typed query fields are Int.  None of the claims exercises overflow of
  Go int64.
* Fallible store writes (db.Create / db.Save / db.Delete returning a non-nil
  Error) are modelled by an explicit success flag (or per-index oracle for
  the batch loop); pure lookups are total, so the gorm branch for a
  non-NotFound query error is unreachable in the model.
* The bcrypt and SHA-256 primitives are modelled symbolically as injective
  tagged constructors (a deterministic, collision-free idealization,
  matching the assumptions of utils_test.go: a wrong password or wrong salt
  must fail verification).
* Timestamps carry whole seconds; none of the claims depends on sub-second
  values of stored items.  The timestamp parser itself models Go time.Parse
  including nanoseconds.
-/

namespace Clipboard

/-! ### String helpers (models of the Go strings package functions used) -/

/-- Prefix test on character lists (helper for the substring test). -/
def leadsWith : List Char → List Char → Bool
  | [], _ => true
  | _ :: _, [] => false
  | a :: as, b :: bs => a == b && leadsWith as bs

/-- Substring occurrence on character lists. -/
def containsAux (sub : List Char) : List Char → Bool
  | [] => sub.isEmpty
  | c :: rest => leadsWith sub (c :: rest) || containsAux sub rest

/-- Model of strings.Contains. -/
def strContains (s sub : String) : Bool :=
  containsAux sub.data s.data

/-! ### utils package (utils/utils.go, the revision that also defines the
salt-based hashing used by auth_handler.go and utils_test.go) -/

/-- Model of utils.GetContentSize: the byte length (not rune count) of the
content. -/
def GetContentSize (content : String) : Nat :=
  content.utf8ByteSize

/-- Model of utils.IsValidContentType. -/
def IsValidContentType (contentType : String) : Bool :=
  contentType == "text" || contentType == "image" || contentType == "file"

/-- Model of utils.TruncateString: if the rune count fits, the string is
returned unchanged, otherwise the first maxLength-3 runes plus an ellipsis. -/
def TruncateString (s : String) (maxLength : Nat) : String :=
  if s.length ≤ maxLength then s
  else String.mk (s.data.take (maxLength - 3)) ++ "..."

/-- The sensitive-keyword list of utils.SanitizeContent in the current
revision of utils/utils.go: every entry of the list is commented out in the
source, so the list is empty. -/
def sanitizePatterns : List String := []

/-- The keyword list of the superseded revision of utils.go
(src/unnamed/part_001), kept for comparison with the spec text. -/
def sanitizePatternsOld : List String :=
  ["password", "passwd", "pwd", "secret", "token", "key", "auth"]

/-- Core of utils.SanitizeContent, parameterized by the keyword list: for
each keyword contained in the lowercased content, if the content is under
100 bytes and contains an equals sign or a colon, the whole content is
replaced by the redaction marker. -/
def sanitizeWith (patterns : List String) (content : String) : String :=
  let lowerContent := content.toLower
  if patterns.any (fun pattern =>
      strContains lowerContent pattern
      && decide (GetContentSize content < 100)
      && (strContains lowerContent "=" || strContains lowerContent ":"))
  then "[SENSITIVE_CONTENT_HIDDEN]"
  else content

/-- Model of utils.SanitizeContent as compiled in the current revision. -/
def SanitizeContent (content : String) : String :=
  sanitizeWith sanitizePatterns content

/-- utils.SanitizeContent of the superseded revision (active keyword list). -/
def sanitizeContentOld (content : String) : String :=
  sanitizeWith sanitizePatternsOld content

/-! ### Credential engine (symbolic model of bcrypt and SHA-256) -/

/-- Symbolic model of hex-encoded SHA-256: an injective tag.  The only
properties the claims use are determinism and that distinct inputs give
distinct outputs, plus that the digest string differs from every plaintext
that does not carry the tag. -/
def sha256Hex (s : String) : String :=
  "sha256:" ++ s

/-- Symbolic model of bcrypt.GenerateFromPassword: a deterministic injective
tag (the internal random bcrypt salt is abstracted away; the verifier below
compares against a recomputation, exactly as bcrypt.CompareHashAndPassword
behaves on hashes produced from the given input). -/
def bcryptGenerate (input : String) : String :=
  "bcrypt:" ++ input

/-- Symbolic model of bcrypt.CompareHashAndPassword (true instead of a nil
error). -/
def bcryptCompare (hash input : String) : Bool :=
  hash == bcryptGenerate input

/-- Model of utils.HashPassword (legacy, pre-salt scheme). -/
def HashPassword (password : String) : String :=
  bcryptGenerate password

/-- Model of utils.CheckPassword (legacy verifier). -/
def CheckPassword (password hash : String) : Bool :=
  bcryptCompare hash password

/-- Model of utils.HashPasswordWithSalt: password and salt are concatenated,
pre-hashed with SHA-256 (hex-encoded) and the digest is bcrypt-hashed. -/
def HashPasswordWithSalt (password salt : String) : String :=
  bcryptGenerate (sha256Hex (password ++ salt))

/-- Model of utils.CheckPasswordWithSalt. -/
def CheckPasswordWithSalt (password salt hash : String) : Bool :=
  bcryptCompare hash (sha256Hex (password ++ salt))

/-! ### Timestamp Normalizer (models.CustomTime.UnmarshalJSON)

Go's time.Parse interprets a layout string as a rendering of the reference
time Mon Jan 2 15:04:05 MST 2006.  Each layout below is pre-chunked exactly
as Go's nextStdChunk chunks it (the chunking is deterministic; the chunk
list for each layout is recorded next to the original layout string). -/

/-- One layout chunk as produced by Go's nextStdChunk, restricted to the
verbs that occur in the 25 layouts of CustomTime.UnmarshalJSON. -/
inductive Chunk where
  | lit : String → Chunk       -- literal text
  | numMonth : Chunk           -- "1"
  | zeroMonth : Chunk          -- "01"
  | day : Chunk                -- "2"
  | zeroDay : Chunk            -- "02"
  | hour : Chunk               -- "15"
  | hour12 : Chunk             -- "3"
  | minute : Chunk             -- "4"
  | zeroMinute : Chunk         -- "04"
  | second : Chunk             -- "5"
  | zeroSecond : Chunk         -- "05"
  | longYear : Chunk           -- "2006"
  | fracFixed : Nat → Chunk    -- ".000"... (exact digit count)
  | fracOpt : Nat → Chunk      -- ".999"... (optional fraction)
  | isoColonTZ : Chunk         -- "Z07:00"
  | numColonTZ : Chunk         -- "-07:00"
deriving DecidableEq, Repr

/-- The parse result: the broken-down time as Go's Parse assembles it
(year/month/day default to 0/1/1; zone offset in seconds east of UTC,
defaulting to UTC). -/
structure GoTime where
  year : Nat
  month : Nat
  day : Nat
  hour : Nat
  minute : Nat
  second : Nat
  nsec : Nat
  offsetSec : Int
deriving DecidableEq, Repr

def goTimeZero : GoTime := ⟨0, 1, 1, 0, 0, 0, 0, 0⟩

def digitVal (c : Char) : Nat := c.toNat - '0'.toNat

def natOfDigits (ds : List Char) : Nat :=
  ds.foldl (fun n c => n * 10 + digitVal c) 0

/-- Model of Go's getnum: one or two digits, exactly two when fixed. -/
def getnum (fixed : Bool) : List Char → Option (Nat × List Char)
  | c1 :: c2 :: rest =>
    if c1.isDigit then
      if c2.isDigit then some (digitVal c1 * 10 + digitVal c2, rest)
      else if fixed then none
      else some (digitVal c1, c2 :: rest)
    else none
  | [c1] =>
    if c1.isDigit && !fixed then some (digitVal c1, []) else none
  | [] => none

/-- Four digits for the "2006" layout verb. -/
def getnum4 : List Char → Option (Nat × List Char)
  | c1 :: c2 :: c3 :: c4 :: rest =>
    if c1.isDigit && c2.isDigit && c3.isDigit && c4.isDigit then
      some (natOfDigits [c1, c2, c3, c4], rest)
    else none
  | _ => none

def commaOrPeriod (c : Char) : Bool := c == '.' || c == ','

/-- Nanoseconds from a digit run: Go's parseNanoseconds uses at most the
first nine digits, scaled to a nanosecond count. -/
def nanoOfDigits (ds : List Char) : Nat :=
  natOfDigits (ds.take 9) * 10 ^ (9 - min ds.length 9)

def isLeapYear (y : Nat) : Bool :=
  y % 4 == 0 && (y % 100 != 0 || y % 400 == 0)

def daysInMonth (year month : Nat) : Nat :=
  if month == 2 then (if isLeapYear year then 29 else 28)
  else if month == 4 || month == 6 || month == 9 || month == 11 then 30
  else 31

/-- Numeric zone of the form +hh:mm / -hh:mm. -/
def parseNumColonZone : List Char → Option (Int × List Char)
  | s :: h1 :: h2 :: c :: m1 :: m2 :: rest =>
    if (s == '+' || s == '-') && h1.isDigit && h2.isDigit && c == ':'
        && m1.isDigit && m2.isDigit then
      let off : Int := ((digitVal h1 * 10 + digitVal h2) * 3600
        + (digitVal m1 * 10 + digitVal m2) * 60 : Nat)
      some (if s == '-' then -off else off, rest)
    else none
  | _ => none

/-- Does the next chunk parse a fractional second?  (Go peeks at the next
layout chunk after parsing seconds.) -/
def nextIsFrac : List Chunk → Bool
  | Chunk.fracFixed _ :: _ => true
  | Chunk.fracOpt _ :: _ => true
  | _ => false

/-- The chunk-by-chunk engine of Go's time.Parse, restricted to the verbs of
the 25 layouts.  Range checks are performed where Go performs them:
the month and the time-of-day fields immediately, the day of month at the end.
After the seconds verb, a fractional second present in the value but not in
the layout is consumed (Go's special case).  Leftover input fails. -/
def parseChunks : List Chunk → List Char → GoTime → Option GoTime
  | [], cs, acc =>
    if cs.isEmpty then
      if 1 ≤ acc.day && acc.day ≤ daysInMonth acc.year acc.month then some acc else none
    else none
  | Chunk.lit s :: ks, cs, acc =>
    if leadsWith s.data cs then parseChunks ks (cs.drop s.data.length) acc else none
  | Chunk.numMonth :: ks, cs, acc =>
    match getnum false cs with
    | some (v, rest) =>
      if v < 1 || 12 < v then none else parseChunks ks rest { acc with month := v }
    | none => none
  | Chunk.zeroMonth :: ks, cs, acc =>
    match getnum true cs with
    | some (v, rest) =>
      if v < 1 || 12 < v then none else parseChunks ks rest { acc with month := v }
    | none => none
  | Chunk.day :: ks, cs, acc =>
    match getnum false cs with
    | some (v, rest) => parseChunks ks rest { acc with day := v }
    | none => none
  | Chunk.zeroDay :: ks, cs, acc =>
    match getnum true cs with
    | some (v, rest) => parseChunks ks rest { acc with day := v }
    | none => none
  | Chunk.hour :: ks, cs, acc =>
    match getnum false cs with
    | some (v, rest) =>
      if 24 ≤ v then none else parseChunks ks rest { acc with hour := v }
    | none => none
  | Chunk.hour12 :: ks, cs, acc =>
    match getnum false cs with
    | some (v, rest) =>
      if 12 < v then none else parseChunks ks rest { acc with hour := v }
    | none => none
  | Chunk.minute :: ks, cs, acc =>
    match getnum false cs with
    | some (v, rest) =>
      if 60 ≤ v then none else parseChunks ks rest { acc with minute := v }
    | none => none
  | Chunk.zeroMinute :: ks, cs, acc =>
    match getnum true cs with
    | some (v, rest) =>
      if 60 ≤ v then none else parseChunks ks rest { acc with minute := v }
    | none => none
  | Chunk.second :: ks, cs, acc =>
    match getnum false cs with
    | some (v, rest) =>
      if 60 ≤ v then none
      else
        match rest with
        | c :: d :: rest2 =>
          if commaOrPeriod c && d.isDigit && !nextIsFrac ks then
            let ds := (d :: rest2).takeWhile (fun x => x.isDigit)
            parseChunks ks ((d :: rest2).drop ds.length)
              { acc with second := v, nsec := nanoOfDigits ds }
          else parseChunks ks (c :: d :: rest2) { acc with second := v }
        | _ => parseChunks ks rest { acc with second := v }
    | none => none
  | Chunk.zeroSecond :: ks, cs, acc =>
    match getnum true cs with
    | some (v, rest) =>
      if 60 ≤ v then none
      else
        match rest with
        | c :: d :: rest2 =>
          if commaOrPeriod c && d.isDigit && !nextIsFrac ks then
            let ds := (d :: rest2).takeWhile (fun x => x.isDigit)
            parseChunks ks ((d :: rest2).drop ds.length)
              { acc with second := v, nsec := nanoOfDigits ds }
          else parseChunks ks (c :: d :: rest2) { acc with second := v }
        | _ => parseChunks ks rest { acc with second := v }
    | none => none
  | Chunk.longYear :: ks, cs, acc =>
    match getnum4 cs with
    | some (v, rest) => parseChunks ks rest { acc with year := v }
    | none => none
  | Chunk.fracFixed n :: ks, cs, acc =>
    match cs with
    | c :: rest =>
      let ds := rest.take n
      if commaOrPeriod c && ds.length == n && ds.all (fun x => x.isDigit) then
        parseChunks ks (rest.drop n) { acc with nsec := nanoOfDigits ds }
      else none
    | [] => none
  | Chunk.fracOpt _ :: ks, cs, acc =>
    match cs with
    | c :: d :: rest =>
      if commaOrPeriod c && d.isDigit then
        let ds := ((d :: rest).takeWhile (fun x => x.isDigit)).take 9
        parseChunks ks ((d :: rest).drop ds.length) { acc with nsec := nanoOfDigits ds }
      else parseChunks ks (c :: d :: rest) acc
    | _ => parseChunks ks cs acc
  | Chunk.isoColonTZ :: ks, cs, acc =>
    match cs with
    | 'Z' :: rest => parseChunks ks rest { acc with offsetSec := 0 }
    | _ =>
      match parseNumColonZone cs with
      | some (off, rest) => parseChunks ks rest { acc with offsetSec := off }
      | none => none
  | Chunk.numColonTZ :: ks, cs, acc =>
    match parseNumColonZone cs with
    | some (off, rest) => parseChunks ks rest { acc with offsetSec := off }
    | none => none

/-- Model of time.Parse for a pre-chunked layout. -/
def goParse (layout : List Chunk) (value : String) : Option GoTime :=
  parseChunks layout value.data goTimeZero

/-- Chunking of "2006-01-02T15:04:05". -/
def dateTimeT : List Chunk :=
  [Chunk.longYear, Chunk.lit "-", Chunk.zeroMonth, Chunk.lit "-", Chunk.zeroDay,
   Chunk.lit "T", Chunk.hour, Chunk.lit ":", Chunk.zeroMinute, Chunk.lit ":",
   Chunk.zeroSecond]

/-- Chunking of "2006-01-02 15:04:05". -/
def dateTimeSpace : List Chunk :=
  [Chunk.longYear, Chunk.lit "-", Chunk.zeroMonth, Chunk.lit "-", Chunk.zeroDay,
   Chunk.lit " ", Chunk.hour, Chunk.lit ":", Chunk.zeroMinute, Chunk.lit ":",
   Chunk.zeroSecond]

/-- Chunking of "2006/01/02 15:04:05". -/
def dateTimeSlash : List Chunk :=
  [Chunk.longYear, Chunk.lit "/", Chunk.zeroMonth, Chunk.lit "/", Chunk.zeroDay,
   Chunk.lit " ", Chunk.hour, Chunk.lit ":", Chunk.zeroMinute, Chunk.lit ":",
   Chunk.zeroSecond]

/-- Chunking of "1136239445" (intended as a Unix-seconds layout): Go's
nextStdChunk reads it as month "1", month "1", 12-hour "3", literal "6",
day "2", 12-hour "3", literal "9", minute "4", minute "4", second "5" —
time.Parse has no Unix-epoch layout verb. -/
def epochChunks : List Chunk :=
  [Chunk.numMonth, Chunk.numMonth, Chunk.hour12, Chunk.lit "6", Chunk.day,
   Chunk.hour12, Chunk.lit "9", Chunk.minute, Chunk.minute, Chunk.second]

/-- Chunking of time.RFC3339 = "2006-01-02T15:04:05Z07:00". -/
def rfc3339Chunks : List Chunk := dateTimeT ++ [Chunk.isoColonTZ]

/-- The 25 formats of CustomTime.UnmarshalJSON, in source order, each
pre-chunked from its Go layout string. -/
def timeFormats : List (List Chunk) :=
  [ dateTimeT ++ [Chunk.fracFixed 6],                   -- "2006-01-02T15:04:05.000000"
    dateTimeT ++ [Chunk.fracFixed 3],                   -- "2006-01-02T15:04:05.000"
    dateTimeT ++ [Chunk.fracFixed 6, Chunk.lit "Z"],    -- "2006-01-02T15:04:05.000000Z"
    dateTimeT ++ [Chunk.fracFixed 3, Chunk.lit "Z"],    -- "2006-01-02T15:04:05.000Z"
    dateTimeT ++ [Chunk.fracFixed 9],                   -- "2006-01-02T15:04:05.000000000"
    dateTimeT ++ [Chunk.fracFixed 9, Chunk.lit "Z"],    -- "2006-01-02T15:04:05.000000000Z"
    dateTimeT ++ [Chunk.fracOpt 9, Chunk.isoColonTZ],   -- time.RFC3339Nano
    rfc3339Chunks,                                      -- time.RFC3339
    dateTimeT ++ [Chunk.lit "Z"],                       -- "2006-01-02T15:04:05Z"
    dateTimeT,                                          -- "2006-01-02T15:04:05"
    dateTimeT ++ [Chunk.fracFixed 6, Chunk.isoColonTZ], -- "2006-01-02T15:04:05.000000Z07:00"
    dateTimeT ++ [Chunk.fracFixed 3, Chunk.isoColonTZ], -- "2006-01-02T15:04:05.000Z07:00"
    dateTimeT ++ [Chunk.isoColonTZ],                    -- "2006-01-02T15:04:05Z07:00"
    dateTimeT ++ [Chunk.fracFixed 6, Chunk.numColonTZ], -- "2006-01-02T15:04:05.000000-07:00"
    dateTimeT ++ [Chunk.fracFixed 3, Chunk.numColonTZ], -- "2006-01-02T15:04:05.000-07:00"
    dateTimeT ++ [Chunk.numColonTZ],                    -- "2006-01-02T15:04:05-07:00"
    dateTimeSpace ++ [Chunk.fracFixed 6],               -- "2006-01-02 15:04:05.000000"
    dateTimeSpace ++ [Chunk.fracFixed 3],               -- "2006-01-02 15:04:05.000"
    dateTimeSpace,                                      -- "2006-01-02 15:04:05"
    dateTimeSlash ++ [Chunk.fracFixed 6],               -- "2006/01/02 15:04:05.000000"
    dateTimeSlash ++ [Chunk.fracFixed 3],               -- "2006/01/02 15:04:05.000"
    dateTimeSlash,                                      -- "2006/01/02 15:04:05"
    epochChunks ++ [Chunk.fracFixed 6],                 -- "1136239445.000000"
    epochChunks ++ [Chunk.fracFixed 3],                 -- "1136239445.000"
    epochChunks ]                                       -- "1136239445"

/-- Model of strings.Trim(s, quote): drop every leading and trailing quote
character. -/
def trimQuotes (s : String) : String :=
  String.mk (((s.data.dropWhile (fun c => c == '"')).reverse.dropWhile
    (fun c => c == '"')).reverse)

/-- First format that parses wins (the loop of UnmarshalJSON). -/
def firstParse (str : String) : List (List Chunk) → Option GoTime
  | [] => none
  | f :: fs =>
    match goParse f str with
    | some t => some t
    | none => firstParse str fs

/-- Model of the fallback json.Unmarshal(data, &ct.Time): time.Time's
UnmarshalJSON accepts only a double-quoted RFC 3339 string. -/
def jsonTimeUnmarshal (data : String) : Option GoTime :=
  match data.data with
  | '"' :: rest =>
    match rest.getLast? with
    | some '"' => parseChunks rfc3339Chunks rest.dropLast goTimeZero
    | _ => none
  | _ => none

/-- The error value of CustomTime.UnmarshalJSON: it carries the original
(trimmed) string and the number of formats attempted. -/
structure TimestampParseError where
  original : String
  formatsTried : Nat
deriving DecidableEq, Repr

/-- Model of models.CustomTime.UnmarshalJSON on the raw JSON bytes of the
timestamp field: quotes are trimmed, null/empty is accepted without setting
a time, the 25 formats are tried in order, then the standard-library JSON
time parse, and otherwise the diagnostic error is returned. -/
def unmarshalCustomTime (data : String) : Except TimestampParseError (Option GoTime) :=
  let str := trimQuotes data
  if str == "null" || str == "" then Except.ok none
  else
    match firstParse str timeFormats with
    | some t => Except.ok (some t)
    | none =>
      match jsonTimeUnmarshal data with
      | some t => Except.ok (some t)
      | none => Except.error ⟨str, timeFormats.length⟩

/-! ### Data model (models/models.go) and store state

The GORM/SQLite store is a list of rows plus a freshness counter for
uuid.New().  Item identifiers are strings as in the source; the uuid
generator is modelled as an injective, never-empty function of the
counter. -/

structure ClipboardItem where
  id : String
  userID : String
  clientID : String
  content : String
  ty : String
  timestamp : Int
deriving DecidableEq, Repr

/-- models.ClipboardItemResponse: ToResponse drops UserID and ClientID.
(The server-assigned created_at/updated_at bookkeeping fields are not
modelled; no claim depends on them.) -/
structure ClipboardItemResponse where
  id : String
  content : String
  ty : String
  timestamp : Int
deriving DecidableEq, Repr

def toResponse (c : ClipboardItem) : ClipboardItemResponse :=
  ⟨c.id, c.content, c.ty, c.timestamp⟩

structure SyncState where
  items : List ClipboardItem
  nextID : Nat
deriving DecidableEq, Repr

/-- Model of uuid.New().String() in the BeforeCreate hook: an injective,
non-empty identifier derived from the freshness counter. -/
def uuidString (n : Nat) : String :=
  String.mk (List.replicate (n + 1) 'u')

/-- Store well-formedness: row identifiers are pairwise distinct and all
were produced by the uuid generator below the current counter. -/
def WF (st : SyncState) : Prop :=
  (st.items.map (fun it => it.id)).Nodup ∧
  ∀ it ∈ st.items, ∃ k, k < st.nextID ∧ it.id = uuidString k

/-- The rows of a (user, client device id) pair, in store order.  The head
of this list is what the single-item sync lookup (gorm First on
user_id = ? AND client_id = ?) returns. -/
def pairRows (st : SyncState) (userID clientID : String) : List ClipboardItem :=
  st.items.filter (fun it => it.userID == userID && it.clientID == clientID)

/-- A handler outcome: HTTP status plus either a success body or the
ErrorResponse pair (error, message). -/
inductive HResp (α : Type) where
  | success : Nat → α → HResp α
  | failure : Nat → String → String → HResp α
deriving DecidableEq, Repr

def statusOf {α : Type} : HResp α → Nat
  | HResp.success s _ => s
  | HResp.failure s _ _ => s

def idOf : HResp ClipboardItemResponse → Option String
  | HResp.success _ b => some b.id
  | HResp.failure _ _ _ => none

/-- models.ClipboardItemRequest after JSON binding (timestamp already
normalized; stored timestamps are modelled at whole-second granularity). -/
structure ItemReq where
  content : String
  ty : String
  timestamp : Option Int
deriving DecidableEq, Repr

/-! ### Handlers (handlers/clipboard_handler.go) -/

/-- Model of ClipboardHandler.CreateItem (authenticated path).  Gin binding
rejects an empty content (binding:"required"); dbOk is the success of the
fallible db.Create. -/
def createItem (maxSize : Nat) (st : SyncState) (userID : String) (req : ItemReq)
    (now : Int) (dbOk : Bool) : HResp ClipboardItemResponse × SyncState :=
  if req.content == "" then
    (HResp.failure 400 "invalid request" "binding: content is required", st)
  else if maxSize < GetContentSize req.content then
    (HResp.failure 413 "content too large" "content size exceeds limit", st)
  else if req.ty != "" && !IsValidContentType req.ty then
    (HResp.failure 400 "invalid content type" "unsupported content type", st)
  else
    let ty := if req.ty == "" then "text" else req.ty
    let item : ClipboardItem :=
      { id := uuidString st.nextID, userID := userID, clientID := "",
        content := SanitizeContent req.content, ty := ty,
        timestamp := req.timestamp.getD now }
    if dbOk then
      (HResp.success 201 (toResponse item), ⟨st.items ++ [item], st.nextID + 1⟩)
    else
      (HResp.failure 500 "creation failed" "failed to create clipboard item", st)

/-- Model of ClipboardHandler.GetItem (authenticated path): lookup scoped by
id AND user_id; a row of another user is indistinguishable from a missing
row. -/
def getItem (st : SyncState) (userID itemID : String) : HResp ClipboardItemResponse :=
  if itemID == "" then HResp.failure 400 "invalid request" "item ID is required"
  else
    match st.items.find? (fun it => it.id == itemID && it.userID == userID) with
    | some it => HResp.success 200 (toResponse it)
    | none => HResp.failure 404 "item not found" "clipboard item not found"

/-- Model of ClipboardHandler.UpdateItem (authenticated path); dbOk is the
success of db.Save. -/
def updateItem (maxSize : Nat) (st : SyncState) (userID itemID : String) (req : ItemReq)
    (dbOk : Bool) : HResp ClipboardItemResponse × SyncState :=
  if itemID == "" then (HResp.failure 400 "invalid request" "item ID is required", st)
  else if req.content == "" then
    (HResp.failure 400 "invalid request" "binding: content is required", st)
  else if maxSize < GetContentSize req.content then
    (HResp.failure 413 "content too large" "content size exceeds limit", st)
  else
    match st.items.find? (fun it => it.id == itemID && it.userID == userID) with
    | none => (HResp.failure 404 "item not found" "clipboard item not found", st)
    | some it =>
      let it1 := { it with content := SanitizeContent req.content }
      let it2 := if req.ty != "" && IsValidContentType req.ty then
          { it1 with ty := req.ty } else it1
      let it3 := match req.timestamp with
        | some ts => { it2 with timestamp := ts }
        | none => it2
      if dbOk then
        (HResp.success 200 (toResponse it3),
         ⟨st.items.map (fun x => if x.id == it.id then it3 else x), st.nextID⟩)
      else (HResp.failure 500 "update failed" "failed to update clipboard item", st)

/-- Model of ClipboardHandler.DeleteItem (authenticated path): a DELETE
scoped by id AND user_id; zero affected rows yields the same not-found
response as a missing id.  dbOk is the success of the DELETE statement. -/
def deleteItem (st : SyncState) (userID itemID : String) (dbOk : Bool) :
    HResp String × SyncState :=
  if itemID == "" then (HResp.failure 400 "invalid request" "item ID is required", st)
  else if !dbOk then
    (HResp.failure 500 "deletion failed" "failed to delete clipboard item", st)
  else
    let affected := (st.items.filter (fun it => it.id == itemID && it.userID == userID)).length
    let remaining := st.items.filter (fun it => !(it.id == itemID && it.userID == userID))
    if affected == 0 then
      (HResp.failure 404 "item not found" "clipboard item not found", ⟨remaining, st.nextID⟩)
    else (HResp.success 200 "clipboard item deleted successfully", ⟨remaining, st.nextID⟩)

/-- The request body of ClipboardHandler.SyncSingleItem; client_id and
content carry binding:"required". -/
structure SyncSingleReq where
  clientID : String
  content : String
  ty : String
  timestamp : Option Int
deriving DecidableEq, Repr

/-- Model of ClipboardHandler.SyncSingleItem: client-id-keyed upsert.  The
lookup is scoped by user_id AND client_id; absence inserts a fresh row
(201), presence overwrites timestamp, content and type on the found row
(200), preserving its identifier and client id.  dbOk is the success of the
write (db.Create or db.Save). -/
def syncSingleItem (maxSize : Nat) (st : SyncState) (userID : String)
    (req : SyncSingleReq) (now : Int) (dbOk : Bool) :
    HResp ClipboardItemResponse × SyncState :=
  if req.clientID == "" || req.content == "" then
    (HResp.failure 400 "invalid request" "binding: client_id and content are required", st)
  else if maxSize < GetContentSize req.content then
    (HResp.failure 413 "content too large" "content size exceeds limit", st)
  else
    let ty := if req.ty == "" then "text" else req.ty
    if !IsValidContentType ty then
      (HResp.failure 400 "invalid content type" "unsupported content type", st)
    else
      let sanitized := SanitizeContent req.content
      let ts := req.timestamp.getD now
      match st.items.find? (fun it => it.userID == userID && it.clientID == req.clientID) with
      | none =>
        let item : ClipboardItem :=
          { id := uuidString st.nextID, userID := userID, clientID := req.clientID,
            content := sanitized, ty := ty, timestamp := ts }
        if dbOk then
          (HResp.success 201 (toResponse item), ⟨st.items ++ [item], st.nextID + 1⟩)
        else (HResp.failure 500 "creation failed" "failed to create clipboard item", st)
      | some existing =>
        let updated := { existing with timestamp := ts, content := sanitized, ty := ty }
        if dbOk then
          (HResp.success 200 (toResponse updated),
           ⟨st.items.map (fun x => if x.id == existing.id then updated else x), st.nextID⟩)
        else (HResp.failure 500 "update failed" "failed to update clipboard item", st)

/-- A sequence of single-item sync calls from one device (healthy store:
every write succeeds). -/
def runSingleSyncs (maxSize : Nat) (userID : String) (now : Int) :
    SyncState → List SyncSingleReq → List (HResp ClipboardItemResponse) × SyncState
  | st, [] => ([], st)
  | st, req :: rest =>
    let first := syncSingleItem maxSize st userID req now true
    let later := runSingleSyncs maxSize userID now first.2 rest
    (first.1 :: later.1, later.2)

/-- models.FailedItem. -/
structure FailedItem where
  content : String
  error : String
deriving DecidableEq, Repr

/-- models.BatchSyncResponse. -/
structure BatchSyncResponse where
  synced : List ClipboardItemResponse
  failed : List FailedItem
  total : Nat
deriving DecidableEq, Repr

/-- The per-item loop of ClipboardHandler.BatchSync, processing the items in
input order; i is the running index feeding the per-item db.Create success
oracle createOk.  A failing item (too large, invalid type, or storage
error) goes to the failed bucket with its content truncated to 50 runes
and a reason, without affecting the other items. -/
def processBatch (maxSize : Nat) (userID : String) (now : Int) (createOk : Nat → Bool) :
    Nat → SyncState → List ItemReq →
    List ClipboardItemResponse × List FailedItem × SyncState
  | _, st, [] => ([], [], st)
  | i, st, req :: rest =>
    if maxSize < GetContentSize req.content then
      let out := processBatch maxSize userID now createOk (i + 1) st rest
      (out.1, ⟨TruncateString req.content 50, "content too large"⟩ :: out.2.1, out.2.2)
    else if req.ty != "" && !IsValidContentType req.ty then
      let out := processBatch maxSize userID now createOk (i + 1) st rest
      (out.1, ⟨TruncateString req.content 50, "invalid content type"⟩ :: out.2.1, out.2.2)
    else
      let ty := if req.ty == "" then "text" else req.ty
      let item : ClipboardItem :=
        { id := uuidString st.nextID, userID := userID, clientID := "",
          content := SanitizeContent req.content, ty := ty,
          timestamp := req.timestamp.getD now }
      if createOk i then
        let out := processBatch maxSize userID now createOk (i + 1)
          ⟨st.items ++ [item], st.nextID + 1⟩ rest
        (toResponse item :: out.1, out.2.1, out.2.2)
      else
        let out := processBatch maxSize userID now createOk (i + 1) st rest
        (out.1, ⟨TruncateString req.content 50, "database error"⟩ :: out.2.1, out.2.2)

inductive BatchResult where
  | badRequest : String → String → BatchResult
  | ok : BatchSyncResponse → BatchResult
deriving DecidableEq, Repr

/-- Model of ClipboardHandler.BatchSync (authenticated path).  The request's
device_id field is bound but never stored (the Go code only logs it); an
empty item list is rejected before any store access. -/
def batchSync (maxSize : Nat) (st : SyncState) (userID deviceID : String)
    (reqs : List ItemReq) (now : Int) (createOk : Nat → Bool) :
    BatchResult × SyncState :=
  if reqs.length == 0 then
    (BatchResult.badRequest "empty request" "no items to sync", st)
  else
    let out := processBatch maxSize userID now createOk 0 st reqs
    (BatchResult.ok ⟨out.1, out.2.1, reqs.length⟩, out.2.2)

/-! ### Listing (ClipboardHandler.GetItems) -/

/-- models.PaginationQuery after query binding (absent page / page_size bind
to the form defaults 1 / 20). -/
structure PaginationQuery where
  page : Int
  pageSize : Int
  since : String
  qtype : String
  search : String
deriving DecidableEq, Repr

structure PaginationResponse where
  items : List ClipboardItemResponse
  total : Int
  page : Int
  pageSize : Int
  totalPages : Int
  hasNext : Bool
  hasPrev : Bool
deriving DecidableEq, Repr

/-- Days since the Unix epoch of a civil date (standard civil-from-days
inverse; used to give the parsed RFC 3339 lower bound of the since filter
an instant on the same axis as stored timestamps). -/
def daysFromCivil (y m d : Int) : Int :=
  let y2 := if m ≤ 2 then y - 1 else y
  let era := (if 0 ≤ y2 then y2 else y2 - 399) / 400
  let yoe := y2 - era * 400
  let mp := (m + 9) % 12
  let doy := (153 * mp + 2) / 5 + d - 1
  let doe := yoe * 365 + yoe / 4 - yoe / 100 + doy
  era * 146097 + doe - 719468

/-- Unix seconds of a parsed time (sub-second part dropped: stored
timestamps are modelled at second granularity). -/
def goTimeToUnix (t : GoTime) : Int :=
  daysFromCivil t.year t.month t.day * 86400
    + t.hour * 3600 + t.minute * 60 + t.second - t.offsetSec

/-- Stable insertion of one row into a timestamp-descending list (model of
ORDER BY timestamp DESC). -/
def sortInsertDesc (x : ClipboardItem) : List ClipboardItem → List ClipboardItem
  | [] => [x]
  | y :: ys => if y.timestamp < x.timestamp then x :: y :: ys else y :: sortInsertDesc x ys

def sortByTimestampDesc : List ClipboardItem → List ClipboardItem
  | [] => []
  | x :: xs => sortInsertDesc x (sortByTimestampDesc xs)

/-- The WHERE clause of GetItems: owner scope, optional RFC 3339 lower time
bound (silently skipped if unparseable), optional exact type filter
(skipped when invalid), optional substring content search — combined with
AND. -/
def matchingItems (st : SyncState) (userID : String) (q : PaginationQuery) :
    List ClipboardItem :=
  let base := st.items.filter (fun it => it.userID == userID)
  let f1 := if q.since != "" then
      match goParse rfc3339Chunks q.since with
      | some t => base.filter (fun it => goTimeToUnix t ≤ it.timestamp)
      | none => base
    else base
  let f2 := if q.qtype != "" && IsValidContentType q.qtype then
      f1.filter (fun it => it.ty == q.qtype)
    else f1
  if q.search != "" then f2.filter (fun it => strContains it.content q.search) else f2

/-- Lines 120-122 of clipboard_handler.go: a non-positive page becomes 1. -/
def effectivePage (p : Int) : Int := if p ≤ 0 then 1 else p

/-- Lines 123-125 of clipboard_handler.go: a non-positive page size OR a
page size above 100 falls back to the default 20. -/
def effectivePageSize (ps : Int) : Int := if ps ≤ 0 || 100 < ps then 20 else ps

/-- Model of ClipboardHandler.GetItems (authenticated path): filters, total
count, timestamp-descending order, offset/limit slice and the pagination
arithmetic (truncating division plus a remainder bump = ceiling). -/
def getItems (st : SyncState) (userID : String) (q : PaginationQuery) :
    PaginationResponse :=
  let page := effectivePage q.page
  let pageSize := effectivePageSize q.pageSize
  let matched := matchingItems st userID q
  let total : Int := matched.length
  let offset := (page - 1) * pageSize
  let pageItems := ((sortByTimestampDesc matched).drop offset.toNat).take pageSize.toNat
  let totalPages := total / pageSize + (if 0 < total % pageSize then 1 else 0)
  { items := pageItems.map toResponse, total := total, page := page,
    pageSize := pageSize, totalPages := totalPages,
    hasNext := decide (page < totalPages), hasPrev := decide (1 < page) }

/-! ### Login with legacy-credential upgrade (AuthHandler.Login, lines
182-204) -/

/-- The credential-relevant part of a stored user row. -/
structure UserRec where
  password : String
  salt : String
deriving DecidableEq, Repr

/-- Model of the password-verification and lazy-migration section of
AuthHandler.Login: a non-empty salt uses the salted verifier; an empty salt
uses the legacy verifier and, on success, rewrites salt and hash with a
freshly generated salt (newSalt), persisting best-effort — the Save error
is ignored (persistOk tells whether the row was actually rewritten), and
the login outcome does not depend on it.  Returns (passwordValid, stored
row after the attempt). -/
def loginVerify (user : UserRec) (reqPassword newSalt : String) (persistOk : Bool) :
    Bool × UserRec :=
  if user.salt != "" then
    (CheckPasswordWithSalt reqPassword user.salt user.password, user)
  else
    let passwordValid := CheckPassword reqPassword user.password
    if passwordValid then
      let upgraded : UserRec := ⟨HashPasswordWithSalt reqPassword newSalt, newSalt⟩
      (true, if persistOk then upgraded else user)
    else (false, user)

/-! ### Validity predicates and concrete stores used by the witnesses -/

/-- A single-item sync request from device clientID that passes binding and
the size/type validation of SyncSingleItem. -/
abbrev ValidSyncReq (maxSize : Nat) (clientID : String) (r : SyncSingleReq) : Prop :=
  r.clientID = clientID ∧ r.content ≠ "" ∧ GetContentSize r.content ≤ maxSize ∧
  (r.ty = "" ∨ IsValidContentType r.ty = true)

/-- A batch item that passes the per-item size and type validation of
BatchSync. -/
abbrev BatchAccepted (maxSize : Nat) (r : ItemReq) : Prop :=
  GetContentSize r.content ≤ maxSize ∧ (r.ty = "" ∨ IsValidContentType r.ty = true)

/-- A store of 25 items owned by alice (distinct ids and timestamps). -/
def demoStore25 : SyncState :=
  ⟨(List.range 25).map (fun k => ⟨uuidString k, "alice", "", "c", "text", (k : Int)⟩), 25⟩

/-- The page-2, size-20 listing query of the pagination claim. -/
def demoQuery : PaginationQuery := ⟨2, 20, "", "", ""⟩

/-! ### Helper lemmas -/

theorem uuidString_inj {a b : Nat} (h : uuidString a = uuidString b) : a = b := by
  have h2 : a + 1 = b + 1 := by
    have h3 := congrArg (fun s => s.data.length) h
    simpa [uuidString] using h3
  omega

theorem uuidString_ne_empty (n : Nat) : uuidString n ≠ "" := by
  intro h
  have h2 := congrArg (fun s => s.data.length) h
  simp [uuidString] at h2

theorem bcrypt_of_salted_ne_bcrypt_of_plain (pw newSalt : String) :
    bcryptGenerate (sha256Hex (pw ++ newSalt)) ≠ bcryptGenerate pw := by
  intro h
  have h2 := congrArg String.length h
  have hb : ("bcrypt:" : String).length = 7 := rfl
  have hs : ("sha256:" : String).length = 7 := rfl
  simp only [bcryptGenerate, sha256Hex, String.length_append, hb, hs] at h2
  omega

/-! ### C3 -/

/-- C3: evaluation of the timestamp normalizer at the spec's inputs.  The
three ISO-style inputs parse to exactly the same instant
(2024-01-01 12:00:00 UTC, whose Unix-seconds value is 1704110400), but the
bare Unix-epoch string fails all 25 formats and the JSON fallback: Go's
time.Parse has no epoch layout verb, so the claim's fourth input is
rejected with the diagnostic error (original string, 25 formats tried),
exactly like the garbage input. -/
theorem customTime_formats_evaluation :
    unmarshalCustomTime "\"2024-01-01T12:00:00.000000Z\""
      = Except.ok (some ⟨2024, 1, 1, 12, 0, 0, 0, 0⟩) ∧
    unmarshalCustomTime "\"2024-01-01T12:00:00Z\""
      = Except.ok (some ⟨2024, 1, 1, 12, 0, 0, 0, 0⟩) ∧
    unmarshalCustomTime "\"2024-01-01 12:00:00\""
      = Except.ok (some ⟨2024, 1, 1, 12, 0, 0, 0, 0⟩) ∧
    goTimeToUnix ⟨2024, 1, 1, 12, 0, 0, 0, 0⟩ = 1704110400 ∧
    unmarshalCustomTime "\"1704110400\""
      = Except.error ⟨"1704110400", 25⟩ ∧
    unmarshalCustomTime "\"not-a-time\""
      = Except.error ⟨"not-a-time", 25⟩ := by
  refine ⟨rfl, rfl, rfl, by decide, rfl, rfl⟩

/-! ### C5 -/

/-- C5: legacy-credential upgrade on login.  For a user with empty salt and
the legacy hash of the correct plaintext, login succeeds; afterwards the
stored salt is the freshly generated non-empty salt, the stored hash
verifies under the salted verifier, and it no longer verifies under the
legacy verifier alone; and when persisting fails, the login still
succeeds. -/
theorem legacy_login_upgrade (user : UserRec) (pw newSalt : String)
    (hsalt : user.salt = "") (hpw : user.password = HashPassword pw)
    (hns : newSalt ≠ "") :
    (loginVerify user pw newSalt true).1 = true ∧
    (loginVerify user pw newSalt true).2.salt = newSalt ∧
    (loginVerify user pw newSalt true).2.salt ≠ "" ∧
    CheckPasswordWithSalt pw (loginVerify user pw newSalt true).2.salt
      (loginVerify user pw newSalt true).2.password = true ∧
    CheckPassword pw (loginVerify user pw newSalt true).2.password = false ∧
    (loginVerify user pw newSalt false).1 = true := by
  have hvalid : CheckPassword pw user.password = true := by
    simp [CheckPassword, bcryptCompare, hpw, HashPassword]
  have hne := bcrypt_of_salted_ne_bcrypt_of_plain pw newSalt
  refine ⟨?_, ?_, ?_, ?_, ?_, ?_⟩ <;>
    simp [loginVerify, hsalt, hpw, HashPassword, hvalid, CheckPasswordWithSalt,
      CheckPassword, HashPasswordWithSalt, bcryptCompare, hns, hne]

/-- Witness for C5 at a concrete legacy user. -/
theorem legacy_login_upgrade_witness :
    ((⟨HashPassword "hunter2", ""⟩ : UserRec).salt = "" ∧
     (⟨HashPassword "hunter2", ""⟩ : UserRec).password = HashPassword "hunter2" ∧
     ("freshsalt" : String) ≠ "") ∧
    ((loginVerify ⟨HashPassword "hunter2", ""⟩ "hunter2" "freshsalt" true).1 = true ∧
     (loginVerify ⟨HashPassword "hunter2", ""⟩ "hunter2" "freshsalt" true).2.salt = "freshsalt" ∧
     (loginVerify ⟨HashPassword "hunter2", ""⟩ "hunter2" "freshsalt" true).2.salt ≠ "" ∧
     CheckPasswordWithSalt "hunter2"
       (loginVerify ⟨HashPassword "hunter2", ""⟩ "hunter2" "freshsalt" true).2.salt
       (loginVerify ⟨HashPassword "hunter2", ""⟩ "hunter2" "freshsalt" true).2.password = true ∧
     CheckPassword "hunter2"
       (loginVerify ⟨HashPassword "hunter2", ""⟩ "hunter2" "freshsalt" true).2.password = false ∧
     (loginVerify ⟨HashPassword "hunter2", ""⟩ "hunter2" "freshsalt" false).1 = true) :=
  ⟨⟨rfl, rfl, by decide⟩,
   legacy_login_upgrade ⟨HashPassword "hunter2", ""⟩ "hunter2" "freshsalt" rfl rfl (by decide)⟩

/-! ### C8 -/

/-- C8 counterexample: a short credential-like key=value content under the
length threshold is NOT replaced by the redaction marker — the keyword list
of the compiled SanitizeContent is empty (every entry is commented out), so
the content is returned unchanged. -/
theorem sanitize_short_secret_counterexample :
    SanitizeContent "password=123" = "password=123" ∧
    SanitizeContent "password=123" ≠ "[SENSITIVE_CONTENT_HIDDEN]" := by
  refine ⟨rfl, by decide⟩

/-- C8 amended: SanitizeContent returns every content string unchanged; with
the empty keyword list the redaction branch is unreachable. -/
theorem sanitizeContent_is_identity (content : String) :
    SanitizeContent content = content := rfl

/-! ### C7 -/

/-- C7 counterexample: a listing request with page_size 150 is served with
an effective page size of 20 (the default), not 100 as the claim states. -/
theorem pageSize_cap_counterexample :
    (getItems ⟨[], 0⟩ "alice" ⟨1, 150, "", "", ""⟩).pageSize = 20 ∧
    (getItems ⟨[], 0⟩ "alice" ⟨1, 150, "", "", ""⟩).pageSize ≠ 100 := by
  refine ⟨rfl, by decide⟩

/-- C7 amended: the effective page size is the bound default 20 whenever the
requested value is non-positive (including the unspecified case, which
binds to the form default 20 and is then kept) OR exceeds 100; a requested
value in 1..100 is used as-is. -/
theorem pageSize_default_and_fallback (st : SyncState) (u : String) (q : PaginationQuery) :
    (q.pageSize ≤ 0 → (getItems st u q).pageSize = 20) ∧
    (100 < q.pageSize → (getItems st u q).pageSize = 20) ∧
    (1 ≤ q.pageSize → q.pageSize ≤ 100 → (getItems st u q).pageSize = q.pageSize) := by
  refine ⟨fun h => ?_, fun h => ?_, fun h1 h2 => ?_⟩ <;>
    simp [getItems, effectivePageSize] <;> omega

/-- Witness for C7's amended statement at page_size 150 and 50. -/
theorem pageSize_default_and_fallback_witness :
    ((100 : Int) < 150 ∧ (getItems ⟨[], 0⟩ "u" ⟨1, 150, "", "", ""⟩).pageSize = 20) ∧
    ((1 : Int) ≤ 50 ∧ (50 : Int) ≤ 100 ∧
     (getItems ⟨[], 0⟩ "u" ⟨1, 50, "", "", ""⟩).pageSize = 50) :=
  ⟨⟨by decide, (pageSize_default_and_fallback ⟨[], 0⟩ "u" ⟨1, 150, "", "", ""⟩).2.1 (by decide)⟩,
   ⟨by decide, by decide,
    (pageSize_default_and_fallback ⟨[], 0⟩ "u" ⟨1, 50, "", "", ""⟩).2.2 (by decide) (by decide)⟩⟩

/-! ### C4 -/

/-- C4: ownership isolation.  If no stored row has id iid1 owned by uid
(iid1 may be another user's item) and iid2 is an id no row has at all, then
uid's get, update and delete requests for iid1 produce exactly the same
responses as for iid2: the not-found outcome, leaving the store
unchanged. -/
theorem ownership_isolation (maxSize : Nat) (st : SyncState) (uid iid1 iid2 : String)
    (req : ItemReq) (dbOk : Bool)
    (h1 : ∀ it ∈ st.items, ¬(it.id = iid1 ∧ it.userID = uid))
    (h2 : ∀ it ∈ st.items, it.id ≠ iid2)
    (hne1 : iid1 ≠ "") (hne2 : iid2 ≠ "") :
    getItem st uid iid1 = getItem st uid iid2 ∧
    updateItem maxSize st uid iid1 req dbOk = updateItem maxSize st uid iid2 req dbOk ∧
    deleteItem st uid iid1 dbOk = deleteItem st uid iid2 dbOk ∧
    getItem st uid iid1 = HResp.failure 404 "item not found" "clipboard item not found" ∧
    (updateItem maxSize st uid iid1 req dbOk).2 = st ∧
    (deleteItem st uid iid1 dbOk).2 = st := by
  have hp1 : ∀ x ∈ st.items, (x.id == iid1 && x.userID == uid) = false := by
    intro x hx
    have hc := h1 x hx
    by_cases hb : x.id = iid1
    · have hu : ¬x.userID = uid := fun hu => hc ⟨hb, hu⟩
      simp [hb, hu]
    · simp [hb]
  have hp2 : ∀ x ∈ st.items, (x.id == iid2 && x.userID == uid) = false := by
    intro x hx
    have hc := h2 x hx
    simp [hc]
  have hf1 : st.items.find? (fun it => it.id == iid1 && it.userID == uid) = none := by
    rw [List.find?_eq_none]
    intro x hx
    simp [hp1 x hx]
  have hf2 : st.items.find? (fun it => it.id == iid2 && it.userID == uid) = none := by
    rw [List.find?_eq_none]
    intro x hx
    simp [hp2 x hx]
  have hfil1 : st.items.filter (fun it => it.id == iid1 && it.userID == uid) = [] := by
    rw [List.filter_eq_nil_iff]
    intro x hx
    simp [hp1 x hx]
  have hfil2 : st.items.filter (fun it => it.id == iid2 && it.userID == uid) = [] := by
    rw [List.filter_eq_nil_iff]
    intro x hx
    simp [hp2 x hx]
  have hrem1 : st.items.filter (fun it => !(it.id == iid1) || !(it.userID == uid)) = st.items := by
    rw [List.filter_eq_self]
    intro x hx
    have hb := hp1 x hx
    cases ha : (x.id == iid1) <;> cases hu : (x.userID == uid) <;> simp_all
  have hrem2 : st.items.filter (fun it => !(it.id == iid2) || !(it.userID == uid)) = st.items := by
    rw [List.filter_eq_self]
    intro x hx
    have hb := hp2 x hx
    cases ha : (x.id == iid2) <;> cases hu : (x.userID == uid) <;> simp_all
  refine ⟨?_, ?_, ?_, ?_, ?_, ?_⟩
  · simp [getItem, hne1, hne2, hf1, hf2]
  · simp [updateItem, hne1, hne2, hf1, hf2]
  · simp [deleteItem, hne1, hne2, hfil1, hfil2, hrem1, hrem2]
  · simp [getItem, hne1, hf1]
  · simp only [updateItem, hf1]
    repeat' split <;> try rfl
  · cases dbOk <;> simp [deleteItem, hne1, hfil1, hrem1]

/-- Witness for C4: alice requesting bob's item behaves exactly like
requesting an id that exists for no user. -/
theorem ownership_isolation_witness :
    ((∀ it ∈ (⟨[⟨uuidString 0, "bob", "", "c", "text", 0⟩], 1⟩ : SyncState).items,
        ¬(it.id = uuidString 0 ∧ it.userID = "alice")) ∧
     (∀ it ∈ (⟨[⟨uuidString 0, "bob", "", "c", "text", 0⟩], 1⟩ : SyncState).items,
        it.id ≠ uuidString 7) ∧
     uuidString 0 ≠ "" ∧ uuidString 7 ≠ "") ∧
    (getItem ⟨[⟨uuidString 0, "bob", "", "c", "text", 0⟩], 1⟩ "alice" (uuidString 0)
       = getItem ⟨[⟨uuidString 0, "bob", "", "c", "text", 0⟩], 1⟩ "alice" (uuidString 7) ∧
     updateItem 1048576 ⟨[⟨uuidString 0, "bob", "", "c", "text", 0⟩], 1⟩ "alice"
         (uuidString 0) ⟨"x", "", none⟩ true
       = updateItem 1048576 ⟨[⟨uuidString 0, "bob", "", "c", "text", 0⟩], 1⟩ "alice"
         (uuidString 7) ⟨"x", "", none⟩ true ∧
     deleteItem ⟨[⟨uuidString 0, "bob", "", "c", "text", 0⟩], 1⟩ "alice" (uuidString 0) true
       = deleteItem ⟨[⟨uuidString 0, "bob", "", "c", "text", 0⟩], 1⟩ "alice" (uuidString 7) true ∧
     getItem ⟨[⟨uuidString 0, "bob", "", "c", "text", 0⟩], 1⟩ "alice" (uuidString 0)
       = HResp.failure 404 "item not found" "clipboard item not found" ∧
     (updateItem 1048576 ⟨[⟨uuidString 0, "bob", "", "c", "text", 0⟩], 1⟩ "alice"
         (uuidString 0) ⟨"x", "", none⟩ true).2
       = ⟨[⟨uuidString 0, "bob", "", "c", "text", 0⟩], 1⟩ ∧
     (deleteItem ⟨[⟨uuidString 0, "bob", "", "c", "text", 0⟩], 1⟩ "alice" (uuidString 0) true).2
       = ⟨[⟨uuidString 0, "bob", "", "c", "text", 0⟩], 1⟩) :=
  ⟨⟨by decide, by decide, by decide, by decide⟩,
   ownership_isolation 1048576 ⟨[⟨uuidString 0, "bob", "", "c", "text", 0⟩], 1⟩ "alice"
     (uuidString 0) (uuidString 7) ⟨"x", "", none⟩ true
     (by decide) (by decide) (by decide) (by decide)⟩

/-! ### C6 -/

theorem length_sortInsertDesc (x : ClipboardItem) (l : List ClipboardItem) :
    (sortInsertDesc x l).length = l.length + 1 := by
  induction l with
  | nil => rfl
  | cons y ys ih =>
    by_cases h : y.timestamp < x.timestamp <;> simp [sortInsertDesc, h, ih]

theorem length_sortByTimestampDesc (l : List ClipboardItem) :
    (sortByTimestampDesc l).length = l.length := by
  induction l with
  | nil => rfl
  | cons x xs ih => simp [sortByTimestampDesc, length_sortInsertDesc, ih]

/-- Truncating division with a remainder bump equals ceiling division. -/
theorem int_ceil_div (a b : Int) (ha : 0 ≤ a) (hb : 1 ≤ b) :
    a / b + (if 0 < a % b then 1 else 0) = (a + b - 1) / b := by
  have hb0 : b ≠ 0 := by omega
  have hdm := Int.ediv_add_emod a b
  by_cases h : 0 < a % b
  · have hmlt : a % b < b := Int.emod_lt_of_pos a (by omega)
    have hsplit : a + b - 1 = (a % b - 1) + b * (1 + a / b) := by
      rw [Int.mul_add, Int.mul_one]
      omega
    rw [if_pos h, hsplit, Int.add_mul_ediv_left _ _ hb0]
    have hz : (a % b - 1) / b = 0 := Int.ediv_eq_zero_of_lt (by omega) (by omega)
    omega
  · have hm0 : a % b = 0 := by
      have := Int.emod_nonneg a hb0
      omega
    have hsplit : a + b - 1 = (b - 1) + b * (a / b) := by omega
    rw [if_neg h, hsplit, Int.add_mul_ediv_left _ _ hb0]
    have hz : (b - 1) / b = 0 := Int.ediv_eq_zero_of_lt (by omega) (by omega)
    omega

/-- C6: listing pagination arithmetic.  For a page in range and a page size
in 1..100 (so not clamped), the response reports total equal to the number
of rows matching the filters, total pages equal to the ceiling of
total / page size, has-next exactly when page < total pages, has-prev
exactly when page > 1, and the page slice has min(page size,
total - offset) items. -/
theorem getItems_pagination (st : SyncState) (u : String) (q : PaginationQuery)
    (hpage : 1 ≤ q.page) (hps1 : 1 ≤ q.pageSize) (hps2 : q.pageSize ≤ 100) :
    (getItems st u q).total = ((matchingItems st u q).length : Int) ∧
    (getItems st u q).totalPages
      = (((matchingItems st u q).length : Int) + q.pageSize - 1) / q.pageSize ∧
    ((getItems st u q).hasNext = true ↔ q.page < (getItems st u q).totalPages) ∧
    ((getItems st u q).hasPrev = true ↔ 1 < q.page) ∧
    (getItems st u q).items.length
      = min q.pageSize.toNat
          ((matchingItems st u q).length - ((q.page - 1) * q.pageSize).toNat) := by
  have hep : effectivePage q.page = q.page := by
    rw [effectivePage, if_neg (by omega)]
  have heps : effectivePageSize q.pageSize = q.pageSize := by
    have hc : ¬(q.pageSize ≤ 0 ∨ 100 < q.pageSize) := by omega
    simp only [effectivePageSize, Bool.or_eq_true, decide_eq_true_eq, hc, if_false]
  refine ⟨?_, ?_, ?_, ?_, ?_⟩
  · simp only [getItems, hep, heps]
  · simp only [getItems, hep, heps]
    exact int_ceil_div _ _ (Int.natCast_nonneg _) (by omega)
  · simp only [getItems, hep, heps]
    exact decide_eq_true_iff
  · simp only [getItems, hep, heps]
    exact decide_eq_true_iff
  · simp only [getItems, hep, heps, List.length_map, List.length_take, List.length_drop,
      length_sortByTimestampDesc]

/-- Witness for C6: 25 stored items, page 2, page size 20 yields 5 items,
no next page, a previous page, and 2 total pages. -/
theorem getItems_pagination_witness :
    ((1 : Int) ≤ demoQuery.page ∧ (1 : Int) ≤ demoQuery.pageSize ∧ demoQuery.pageSize ≤ 100) ∧
    ((getItems demoStore25 "alice" demoQuery).total
       = ((matchingItems demoStore25 "alice" demoQuery).length : Int) ∧
     (getItems demoStore25 "alice" demoQuery).totalPages
       = (((matchingItems demoStore25 "alice" demoQuery).length : Int)
           + demoQuery.pageSize - 1) / demoQuery.pageSize ∧
     ((getItems demoStore25 "alice" demoQuery).hasNext = true
       ↔ demoQuery.page < (getItems demoStore25 "alice" demoQuery).totalPages) ∧
     ((getItems demoStore25 "alice" demoQuery).hasPrev = true ↔ 1 < demoQuery.page) ∧
     (getItems demoStore25 "alice" demoQuery).items.length
       = min demoQuery.pageSize.toNat
           ((matchingItems demoStore25 "alice" demoQuery).length
             - ((demoQuery.page - 1) * demoQuery.pageSize).toNat)) ∧
    ((matchingItems demoStore25 "alice" demoQuery).length = 25 ∧
     (getItems demoStore25 "alice" demoQuery).total = 25 ∧
     (getItems demoStore25 "alice" demoQuery).items.length = 5 ∧
     (getItems demoStore25 "alice" demoQuery).hasNext = false ∧
     (getItems demoStore25 "alice" demoQuery).hasPrev = true ∧
     (getItems demoStore25 "alice" demoQuery).totalPages = 2) :=
  ⟨⟨by decide, by decide, by decide⟩,
   getItems_pagination demoStore25 "alice" demoQuery (by decide) (by decide) (by decide),
   by decide⟩

/-! ### C1: lemmas about the upsert step -/

theorem find?_of_filter_cons {α : Type} {p : α → Bool} {l : List α} {r : α} {rs : List α}
    (h : l.filter p = r :: rs) : l.find? p = some r := by
  induction l with
  | nil => simp at h
  | cons x xs ih =>
    by_cases hx : p x
    · rw [List.filter_cons_of_pos hx] at h
      injection h with h1 h2
      rw [List.find?_cons_of_pos _ hx, h1]
    · rw [List.filter_cons_of_neg hx] at h
      rw [List.find?_cons_of_neg _ hx]
      exact ih h

theorem id_unique (l : List ClipboardItem) (hnd : (l.map (fun it => it.id)).Nodup) :
    ∀ r ∈ l, ∀ x ∈ l, x.id = r.id → x = r := by
  induction l with
  | nil => intro r hr; cases hr
  | cons y ys ih =>
    rw [List.map_cons, List.nodup_cons] at hnd
    intro r hr x hx hid
    rcases List.mem_cons.mp hr with hry | hr2
    · subst hry
      rcases List.mem_cons.mp hx with hxy | hx2
      · exact hxy
      · exfalso
        apply hnd.1
        rw [← hid]
        exact List.mem_map_of_mem _ hx2
    · rcases List.mem_cons.mp hx with hxy | hx2
      · exfalso
        subst hxy
        apply hnd.1
        rw [hid]
        exact List.mem_map_of_mem _ hr2
      · exact ih hnd.2 r hr2 x hx2 hid

theorem filter_map_replace (p : ClipboardItem → Bool) (l : List ClipboardItem)
    (r r2 : ClipboardItem)
    (huniq : ∀ x ∈ l, x.id = r.id → x = r)
    (hfil : l.filter p = [r]) (hid : r2.id = r.id) (hp : p r2 = true) :
    (l.map (fun x => if x.id == r.id then r2 else x)).filter p = [r2] := by
  induction l with
  | nil => simp at hfil
  | cons x xs ih =>
    by_cases hx : p x
    · rw [List.filter_cons_of_pos hx] at hfil
      injection hfil with h1 h2
      subst h1
      rw [List.map_cons]
      have hxx : (if x.id == x.id then r2 else x) = r2 := by simp
      rw [hxx, List.filter_cons_of_pos hp]
      have hmap : xs.map (fun y => if y.id == x.id then r2 else y) = xs := by
        have : ∀ y ∈ xs, (if y.id == x.id then r2 else y) = id y := by
          intro y hy
          have hne : ¬y.id = x.id := by
            intro hye
            have hyx := huniq y (List.mem_cons_of_mem _ hy) hye
            subst hyx
            exact (List.filter_eq_nil_iff.mp h2 y hy) hx
          simp [hne]
        rw [List.map_congr_left this, List.map_id]
      rw [hmap, h2]
    · rw [List.filter_cons_of_neg hx] at hfil
      rw [List.map_cons]
      have hgx : (if x.id == r.id then r2 else x) = x := by
        have hne : ¬x.id = r.id := by
          intro hxe
          have hxr := huniq x (List.mem_cons_self _ _) hxe
          have hpr : p r = true := by
            have hmem : r ∈ xs.filter p := by
              rw [hfil]
              exact List.mem_singleton_self _
            exact (List.mem_filter.mp hmem).2
          subst hxr
          exact hx hpr
        simp [hne]
      rw [hgx, List.filter_cons_of_neg hx]
      exact ih (fun y hy hd => huniq y (List.mem_cons_of_mem _ hy) hd) hfil

theorem wf_append_new (st : SyncState) (hwf : WF st) (item : ClipboardItem)
    (hid : item.id = uuidString st.nextID) :
    WF ⟨st.items ++ [item], st.nextID + 1⟩ := by
  obtain ⟨hnd, hbound⟩ := hwf
  constructor
  · rw [List.map_append, List.nodup_append]
    refine ⟨hnd, by simp, ?_⟩
    intro a ha
    simp only [List.map_cons, List.map_nil, List.mem_singleton]
    intro hae
    obtain ⟨x, hx, hxa⟩ := List.mem_map.mp ha
    obtain ⟨k, hk, he⟩ := hbound x hx
    have : uuidString k = uuidString st.nextID := by
      rw [← he, hxa, hae, hid]
    have := uuidString_inj this
    omega
  · intro it hit
    rcases List.mem_append.mp hit with h | h
    · obtain ⟨k, hk, he⟩ := hbound it h
      exact ⟨k, Nat.lt_succ_of_lt hk, he⟩
    · rw [List.mem_singleton] at h
      subst h
      exact ⟨st.nextID, Nat.lt_succ_self _, hid⟩

theorem wf_replace (st : SyncState) (hwf : WF st) (rid : String) (r2 : ClipboardItem)
    (hid : r2.id = rid) :
    WF ⟨st.items.map (fun x => if x.id == rid then r2 else x), st.nextID⟩ := by
  obtain ⟨hnd, hbound⟩ := hwf
  constructor
  · have hids : (st.items.map (fun x => if x.id == rid then r2 else x)).map (fun it => it.id)
        = st.items.map (fun it => it.id) := by
      rw [List.map_map]
      apply List.map_congr_left
      intro x hx
      by_cases hxe : x.id = rid
      · simp [Function.comp, hxe, hid]
      · simp [Function.comp, hxe]
    rw [hids]
    exact hnd
  · intro it hit
    obtain ⟨y, hy, hgy⟩ := List.mem_map.mp hit
    obtain ⟨k, hk, he⟩ := hbound y hy
    refine ⟨k, hk, ?_⟩
    rw [← hgy]
    by_cases hxe : y.id = rid
    · rw [if_pos (by simp [hxe])]
      rw [hid, ← hxe]
      exact he
    · rw [if_neg (by simp [hxe])]
      exact he

theorem syncSingle_step_create (maxSize : Nat) (u cid : String) (now : Int)
    (st : SyncState) (r : SyncSingleReq)
    (hv : ValidSyncReq maxSize cid r) (hcid : cid ≠ "")
    (h0 : pairRows st u cid = []) :
    ∃ item : ClipboardItem,
      syncSingleItem maxSize st u r now true
        = (HResp.success 201 (toResponse item), ⟨st.items ++ [item], st.nextID + 1⟩) ∧
      item.id = uuidString st.nextID ∧ item.userID = u ∧ item.clientID = cid ∧
      item.content = SanitizeContent r.content ∧
      item.ty = (if r.ty = "" then "text" else r.ty) ∧
      item.timestamp = r.timestamp.getD now := by
  obtain ⟨hc, hcont, hsize, hty⟩ := hv
  have hcne : r.clientID ≠ "" := by rw [hc]; exact hcid
  have hfind : st.items.find? (fun it => it.userID == u && it.clientID == r.clientID)
      = none := by
    rw [List.find?_eq_none]
    intro x hx
    have hfx := List.filter_eq_nil_iff.mp h0 x hx
    rw [hc]
    exact hfx
  have hbty : IsValidContentType (if r.ty = "" then "text" else r.ty) = true := by
    rcases hty with h | h
    · simp [h, IsValidContentType]
    · by_cases he : r.ty = ""
      · simp [he, IsValidContentType]
      · simp [he, h]
  refine ⟨⟨uuidString st.nextID, u, r.clientID, SanitizeContent r.content,
    (if r.ty = "" then "text" else r.ty), r.timestamp.getD now⟩, ?_, rfl, rfl, hc,
    rfl, rfl, rfl⟩
  simp [syncSingleItem, hcne, hcont, Nat.not_lt.mpr hsize, hbty, hfind]

theorem syncSingle_step_update (maxSize : Nat) (u cid : String) (now : Int)
    (st : SyncState) (r : SyncSingleReq) (row : ClipboardItem)
    (hwf : WF st) (hv : ValidSyncReq maxSize cid r) (hcid : cid ≠ "")
    (h1 : pairRows st u cid = [row]) :
    ∃ row2 : ClipboardItem,
      syncSingleItem maxSize st u r now true
        = (HResp.success 200 (toResponse row2),
           ⟨st.items.map (fun x => if x.id == row.id then row2 else x), st.nextID⟩) ∧
      row2.id = row.id ∧
      row2.content = SanitizeContent r.content ∧
      row2.ty = (if r.ty = "" then "text" else r.ty) ∧
      row2.timestamp = r.timestamp.getD now ∧
      pairRows ⟨st.items.map (fun x => if x.id == row.id then row2 else x), st.nextID⟩ u cid
        = [row2] ∧
      WF ⟨st.items.map (fun x => if x.id == row.id then row2 else x), st.nextID⟩ := by
  obtain ⟨hc, hcont, hsize, hty⟩ := hv
  have hcne : r.clientID ≠ "" := by rw [hc]; exact hcid
  have hmem : row ∈ st.items ∧ (row.userID == u && row.clientID == cid) = true := by
    have : row ∈ st.items.filter (fun it => it.userID == u && it.clientID == cid) := by
      rw [show st.items.filter (fun it => it.userID == u && it.clientID == cid)
          = pairRows st u cid from rfl, h1]
      exact List.mem_singleton_self _
    exact ⟨(List.mem_filter.mp this).1, (List.mem_filter.mp this).2⟩
  have hfind : st.items.find? (fun it => it.userID == u && it.clientID == r.clientID)
      = some row := by
    rw [hc]
    exact find?_of_filter_cons h1
  have hbty : IsValidContentType (if r.ty = "" then "text" else r.ty) = true := by
    rcases hty with h | h
    · simp [h, IsValidContentType]
    · by_cases he : r.ty = ""
      · simp [he, IsValidContentType]
      · simp [he, h]
  obtain ⟨row2, hrow2⟩ : ∃ row2 : ClipboardItem, row2 = { row with
      timestamp := (r.timestamp.getD now)
      content := (SanitizeContent r.content)
      ty := (if r.ty = "" then "text" else r.ty) } := ⟨_, rfl⟩
  have hid2 : row2.id = row.id := by rw [hrow2]
  refine ⟨row2, ?_, hid2, by rw [hrow2], by rw [hrow2], by rw [hrow2], ?_, ?_⟩
  · rw [hrow2]
    simp [syncSingleItem, hcne, hcont, Nat.not_lt.mpr hsize, hbty, hfind]
  · apply filter_map_replace _ _ row row2 (id_unique st.items hwf.1 row hmem.1) h1 hid2
    rw [hrow2]
    simp only [Bool.and_eq_true, beq_iff_eq] at hmem ⊢
    exact hmem.2
  · exact wf_replace st hwf row.id row2 hid2

theorem runSingleSyncs_length (maxSize : Nat) (u : String) (now : Int) :
    ∀ (reqs : List SyncSingleReq) (st : SyncState),
      (runSingleSyncs maxSize u now st reqs).1.length = reqs.length := by
  intro reqs
  induction reqs with
  | nil => intro st; rfl
  | cons r rs ih =>
    intro st
    simp [runSingleSyncs, ih]

/-- The unique row of a pair always carries the pair's user and client id
(it passed the lookup's filter). -/
theorem pairRows_mem_fields {st : SyncState} {u cid : String} {row : ClipboardItem}
    (h : pairRows st u cid = [row]) : row.userID = u ∧ row.clientID = cid := by
  have hm : row ∈ st.items.filter (fun it => it.userID == u && it.clientID == cid) := by
    rw [show st.items.filter (fun it => it.userID == u && it.clientID == cid)
        = pairRows st u cid from rfl, h]
    exact List.mem_singleton_self _
  have hp := (List.mem_filter.mp hm).2
  simp only [Bool.and_eq_true, beq_iff_eq] at hp
  exact hp

theorem runSingleSyncs_updates (maxSize : Nat) (u cid : String) (now : Int) (rid : String) :
    ∀ (reqs : List SyncSingleReq) (st : SyncState),
      (∀ r ∈ reqs, ValidSyncReq maxSize cid r) → cid ≠ "" →
      WF st → (∃ row, pairRows st u cid = [row] ∧ row.id = rid) →
      (∀ resp ∈ (runSingleSyncs maxSize u now st reqs).1,
          statusOf resp = 200 ∧ idOf resp = some rid) ∧
      (∀ (i : Nat) (resp : HResp ClipboardItemResponse) (q : SyncSingleReq),
          (runSingleSyncs maxSize u now st reqs).1[i]? = some resp → reqs[i]? = some q →
          resp = HResp.success 200 ⟨rid, SanitizeContent q.content,
            (if q.ty = "" then "text" else q.ty), (q.timestamp.getD now)⟩) ∧
      WF (runSingleSyncs maxSize u now st reqs).2 ∧
      (∃ row, pairRows (runSingleSyncs maxSize u now st reqs).2 u cid = [row]
        ∧ row.id = rid) ∧
      (∀ rl, reqs.getLast? = some rl →
        ∃ row, pairRows (runSingleSyncs maxSize u now st reqs).2 u cid = [row] ∧
          row.id = rid ∧ row.content = SanitizeContent rl.content ∧
          row.ty = (if rl.ty = "" then "text" else rl.ty) ∧
          row.timestamp = rl.timestamp.getD now) := by
  intro reqs
  induction reqs with
  | nil =>
    intro st hv hcid hwf hrow
    refine ⟨by simp [runSingleSyncs], ?_, hwf, hrow, ?_⟩
    · intro i resp q hresp hq
      simp [runSingleSyncs] at hresp
    · intro rl hl
      simp at hl
  | cons r rs ih =>
    intro st hv hcid hwf hrow
    obtain ⟨row, hpr, hrid⟩ := hrow
    obtain ⟨row2, heq, hid2, hcont2, hty2, hts2, hpr2, hwf2⟩ :=
      syncSingle_step_update maxSize u cid now st r row hwf (hv r (by simp)) hcid hpr
    have ihres := ih ⟨st.items.map (fun x => if x.id == row.id then row2 else x), st.nextID⟩
      (fun x hx => hv x (by simp [hx])) hcid hwf2 ⟨row2, hpr2, hid2.trans hrid⟩
    obtain ⟨hall, hidx, hwfN, hrowN, hlast⟩ := ihres
    refine ⟨?_, ?_, ?_, ?_, ?_⟩
    · intro resp hresp
      simp only [runSingleSyncs, heq] at hresp
      rcases List.mem_cons.mp hresp with hh | ht
      · subst hh
        exact ⟨rfl, by simp [idOf, toResponse, hid2, hrid]⟩
      · exact hall resp ht
    · intro i resp q hresp hq
      simp only [runSingleSyncs, heq] at hresp
      cases i with
      | zero =>
        rw [List.getElem?_cons_zero] at hresp hq
        injection hresp with h2
        injection hq with h3
        subst h2
        subst h3
        simp [toResponse, hid2, hrid, hcont2, hty2, hts2]
      | succ j =>
        rw [List.getElem?_cons_succ] at hresp hq
        exact hidx j resp q hresp hq
    · simp only [runSingleSyncs, heq]
      exact hwfN
    · simp only [runSingleSyncs, heq]
      exact hrowN
    · intro rl hl
      simp only [runSingleSyncs, heq]
      cases rs with
      | nil =>
        have hrl : r = rl := by simpa using hl
        subst hrl
        exact ⟨row2, hpr2, hid2.trans hrid, hcont2, hty2, hts2⟩
      | cons r2 rs2 =>
        have hl2 : (r2 :: rs2).getLast? = some rl := by
          rw [List.getLast?_cons_cons] at hl
          exact hl
        exact hlast rl hl2

/-- C1: single-item sync is an idempotent client-id-keyed upsert.  Starting
from a well-formed store with no row for the (user, client device id) pair
(non-empty device id), after any sequence of validation-passing single-item
sync calls for that pair: at most one row for the pair exists, that row
keeps the identifier assigned by the first call, the first call answers 201
(created), every later call answers 200 (updated), each call's response
echoes that call's (sanitized) content, (defaulted) type and timestamp on
the preserved identifier, and the stored row ends up with the LAST call's
content, type and timestamp — later calls overwrite the row in place. -/
theorem syncSingleItem_idempotent_upsert (maxSize : Nat) (u cid : String) (now : Int)
    (st0 : SyncState) (reqs : List SyncSingleReq)
    (hwf : WF st0) (hcid : cid ≠ "") (h0 : pairRows st0 u cid = [])
    (hv : ∀ r ∈ reqs, ValidSyncReq maxSize cid r) :
    (pairRows (runSingleSyncs maxSize u now st0 reqs).2 u cid).length ≤ 1 ∧
    (∀ it ∈ pairRows (runSingleSyncs maxSize u now st0 reqs).2 u cid,
        it.id = uuidString st0.nextID) ∧
    (runSingleSyncs maxSize u now st0 reqs).1.length = reqs.length ∧
    (∀ (i : Nat) (resp : HResp ClipboardItemResponse),
      (runSingleSyncs maxSize u now st0 reqs).1[i]? = some resp →
      statusOf resp = (if i = 0 then 201 else 200) ∧
      idOf resp = some (uuidString st0.nextID)) ∧
    (∀ (i : Nat) (resp : HResp ClipboardItemResponse) (q : SyncSingleReq),
      (runSingleSyncs maxSize u now st0 reqs).1[i]? = some resp → reqs[i]? = some q →
      resp = HResp.success (if i = 0 then 201 else 200)
        ⟨uuidString st0.nextID, SanitizeContent q.content,
         (if q.ty = "" then "text" else q.ty), (q.timestamp.getD now)⟩) ∧
    (∀ rl, reqs.getLast? = some rl →
      ∃ row, pairRows (runSingleSyncs maxSize u now st0 reqs).2 u cid = [row] ∧
        row.id = uuidString st0.nextID ∧ row.userID = u ∧ row.clientID = cid ∧
        row.content = SanitizeContent rl.content ∧
        row.ty = (if rl.ty = "" then "text" else rl.ty) ∧
        row.timestamp = rl.timestamp.getD now) := by
  cases reqs with
  | nil =>
    refine ⟨by simp [runSingleSyncs, h0], by simp [runSingleSyncs, h0], rfl, ?_, ?_, ?_⟩
    · intro i resp h
      simp [runSingleSyncs] at h
    · intro i resp q h hq
      simp [runSingleSyncs] at h
    · intro rl hl
      simp at hl
  | cons r rs =>
    obtain ⟨item, heq, hid, hu, hcl, hcont, hty1, hts1⟩ :=
      syncSingle_step_create maxSize u cid now st0 r (hv r (by simp)) hcid h0
    have hwf1 : WF ⟨st0.items ++ [item], st0.nextID + 1⟩ := wf_append_new st0 hwf item hid
    have hpr1 : pairRows ⟨st0.items ++ [item], st0.nextID + 1⟩ u cid = [item] := by
      show (st0.items ++ [item]).filter (fun it => it.userID == u && it.clientID == cid)
        = [item]
      rw [List.filter_append]
      rw [show st0.items.filter (fun it => it.userID == u && it.clientID == cid)
          = pairRows st0 u cid from rfl, h0]
      simp [hu, hcl]
    obtain ⟨hall, hidx, hwfN, ⟨rowN, hprN, hidN⟩, hlast⟩ := runSingleSyncs_updates
      maxSize u cid now (uuidString st0.nextID) rs ⟨st0.items ++ [item], st0.nextID + 1⟩
      (fun x hx => hv x (by simp [hx])) hcid hwf1 ⟨item, hpr1, hid⟩
    refine ⟨?_, ?_, ?_, ?_, ?_, ?_⟩
    · simp only [runSingleSyncs, heq, hprN]
      simp
    · simp only [runSingleSyncs, heq, hprN]
      intro it hit
      rw [List.mem_singleton] at hit
      subst hit
      exact hidN
    · simp only [runSingleSyncs, heq]
      simp [runSingleSyncs_length maxSize u now rs]
    · intro i resp h
      simp only [runSingleSyncs, heq] at h
      cases i with
      | zero =>
        rw [List.getElem?_cons_zero] at h
        injection h with h2
        subst h2
        exact ⟨rfl, by simp [idOf, toResponse, hid]⟩
      | succ j =>
        rw [List.getElem?_cons_succ] at h
        have hmem : resp ∈ (runSingleSyncs maxSize u now
            ⟨st0.items ++ [item], st0.nextID + 1⟩ rs).1 := by
          exact List.getElem?_mem h
        have hr := hall resp hmem
        exact ⟨by simp [hr.1], hr.2⟩
    · intro i resp q h hq
      simp only [runSingleSyncs, heq] at h
      cases i with
      | zero =>
        rw [List.getElem?_cons_zero] at h hq
        injection h with h2
        injection hq with h3
        subst h2
        subst h3
        simp [toResponse, hid, hcont, hty1, hts1]
      | succ j =>
        rw [List.getElem?_cons_succ] at h hq
        have hr := hidx j resp q h hq
        rw [hr]
        simp
    · intro rl hl
      simp only [runSingleSyncs, heq]
      cases rs with
      | nil =>
        have hrl : r = rl := by simpa using hl
        subst hrl
        exact ⟨item, hpr1, hid, hu, hcl, hcont, hty1, hts1⟩
      | cons r2 rs2 =>
        have hl2 : (r2 :: rs2).getLast? = some rl := by
          rw [List.getLast?_cons_cons] at hl
          exact hl
        obtain ⟨row, hprow, hrowid, hrcont, hrty, hrts⟩ := hlast rl hl2
        have hf := pairRows_mem_fields hprow
        exact ⟨row, hprow, hrowid, hf.1, hf.2, hrcont, hrty, hrts⟩

/-- Witness for C1: three syncs from device dev-1 on an empty store, the
third with different content "world" and type "text": one row results, 201
then 200 then 200, every response echoes its call's values on the preserved
identifier, and the stored row is concretely the third call's row — its
content, type and timestamp were overwritten in place. -/
theorem syncSingleItem_idempotent_upsert_witness :
    (WF (⟨[], 0⟩ : SyncState) ∧ ("dev-1" : String) ≠ "" ∧
     pairRows ⟨[], 0⟩ "alice" "dev-1" = [] ∧
     (∀ r ∈ ([⟨"dev-1", "hello", "", some 10⟩, ⟨"dev-1", "hello", "", some 11⟩,
         ⟨"dev-1", "world", "text", some 12⟩] : List SyncSingleReq),
       ValidSyncReq 1048576 "dev-1" r)) ∧
    ((pairRows (runSingleSyncs 1048576 "alice" 0 ⟨[], 0⟩
        [⟨"dev-1", "hello", "", some 10⟩, ⟨"dev-1", "hello", "", some 11⟩,
         ⟨"dev-1", "world", "text", some 12⟩]).2 "alice" "dev-1").length ≤ 1 ∧
     (∀ it ∈ pairRows (runSingleSyncs 1048576 "alice" 0 ⟨[], 0⟩
        [⟨"dev-1", "hello", "", some 10⟩, ⟨"dev-1", "hello", "", some 11⟩,
         ⟨"dev-1", "world", "text", some 12⟩]).2 "alice" "dev-1",
        it.id = uuidString (⟨[], 0⟩ : SyncState).nextID) ∧
     (runSingleSyncs 1048576 "alice" 0 ⟨[], 0⟩
        [⟨"dev-1", "hello", "", some 10⟩, ⟨"dev-1", "hello", "", some 11⟩,
         ⟨"dev-1", "world", "text", some 12⟩]).1.length
       = ([⟨"dev-1", "hello", "", some 10⟩, ⟨"dev-1", "hello", "", some 11⟩,
           ⟨"dev-1", "world", "text", some 12⟩] : List SyncSingleReq).length ∧
     (∀ (i : Nat) (resp : HResp ClipboardItemResponse),
       (runSingleSyncs 1048576 "alice" 0 ⟨[], 0⟩
          [⟨"dev-1", "hello", "", some 10⟩, ⟨"dev-1", "hello", "", some 11⟩,
           ⟨"dev-1", "world", "text", some 12⟩]).1[i]? = some resp →
       statusOf resp = (if i = 0 then 201 else 200) ∧
       idOf resp = some (uuidString (⟨[], 0⟩ : SyncState).nextID)) ∧
     (∀ (i : Nat) (resp : HResp ClipboardItemResponse) (q : SyncSingleReq),
       (runSingleSyncs 1048576 "alice" 0 ⟨[], 0⟩
          [⟨"dev-1", "hello", "", some 10⟩, ⟨"dev-1", "hello", "", some 11⟩,
           ⟨"dev-1", "world", "text", some 12⟩]).1[i]? = some resp →
       ([⟨"dev-1", "hello", "", some 10⟩, ⟨"dev-1", "hello", "", some 11⟩,
         ⟨"dev-1", "world", "text", some 12⟩] : List SyncSingleReq)[i]? = some q →
       resp = HResp.success (if i = 0 then 201 else 200)
         ⟨uuidString (⟨[], 0⟩ : SyncState).nextID, SanitizeContent q.content,
          (if q.ty = "" then "text" else q.ty), (q.timestamp.getD 0)⟩) ∧
     (∀ rl, ([⟨"dev-1", "hello", "", some 10⟩, ⟨"dev-1", "hello", "", some 11⟩,
         ⟨"dev-1", "world", "text", some 12⟩] : List SyncSingleReq).getLast? = some rl →
       ∃ row, pairRows (runSingleSyncs 1048576 "alice" 0 ⟨[], 0⟩
           [⟨"dev-1", "hello", "", some 10⟩, ⟨"dev-1", "hello", "", some 11⟩,
            ⟨"dev-1", "world", "text", some 12⟩]).2 "alice" "dev-1" = [row] ∧
         row.id = uuidString (⟨[], 0⟩ : SyncState).nextID ∧ row.userID = "alice" ∧
         row.clientID = "dev-1" ∧ row.content = SanitizeContent rl.content ∧
         row.ty = (if rl.ty = "" then "text" else rl.ty) ∧
         row.timestamp = rl.timestamp.getD 0)) ∧
    pairRows (runSingleSyncs 1048576 "alice" 0 ⟨[], 0⟩
        [⟨"dev-1", "hello", "", some 10⟩, ⟨"dev-1", "hello", "", some 11⟩,
         ⟨"dev-1", "world", "text", some 12⟩]).2 "alice" "dev-1"
      = [⟨uuidString 0, "alice", "dev-1", "world", "text", 12⟩] :=
  ⟨⟨⟨List.nodup_nil, fun it h => absurd h (List.not_mem_nil it)⟩, by decide, rfl,
    by decide⟩,
   syncSingleItem_idempotent_upsert 1048576 "alice" "dev-1" 0 ⟨[], 0⟩
     [⟨"dev-1", "hello", "", some 10⟩, ⟨"dev-1", "hello", "", some 11⟩,
      ⟨"dev-1", "world", "text", some 12⟩]
     ⟨List.nodup_nil, fun it h => absurd h (List.not_mem_nil it)⟩
     (by decide) rfl (by decide),
   by decide⟩

/-! ### C2, C9, C10: the batch loop -/

theorem processBatch_spec (maxSize : Nat) (u : String) (now : Int) (createOk : Nat → Bool) :
    ∀ (reqs : List ItemReq) (i : Nat) (st : SyncState),
      (processBatch maxSize u now createOk i st reqs).1.length
        + (processBatch maxSize u now createOk i st reqs).2.1.length = reqs.length ∧
      (∀ x ∈ st.items, x ∈ (processBatch maxSize u now createOk i st reqs).2.2.items) ∧
      (∀ x ∈ (processBatch maxSize u now createOk i st reqs).2.2.items,
          x ∈ st.items ∨ x.clientID = "") ∧
      (∀ f ∈ (processBatch maxSize u now createOk i st reqs).2.1,
          ∃ j, ∃ hj : j < reqs.length,
            f.content = TruncateString reqs[j].content 50 ∧
            (f.error = "content too large" ∨ f.error = "invalid content type"
              ∨ f.error = "database error")) ∧
      (∀ j, ∀ hj : j < reqs.length,
          BatchAccepted maxSize reqs[j] → createOk (i + j) = true →
          ∃ x ∈ (processBatch maxSize u now createOk i st reqs).2.2.items,
            x.userID = u ∧ x.clientID = "" ∧
            x.content = SanitizeContent reqs[j].content) ∧
      (∀ (u2 cid : String), cid ≠ "" →
          pairRows (processBatch maxSize u now createOk i st reqs).2.2 u2 cid
            = pairRows st u2 cid) := by
  intro reqs
  induction reqs with
  | nil =>
    intro i st
    refine ⟨rfl, fun x hx => hx, fun x hx => Or.inl hx, by simp [processBatch], ?_,
      fun u2 cid h => rfl⟩
    intro j hj
    exact absurd hj (by simp)
  | cons r rs ih =>
    intro i st
    by_cases h1 : maxSize < GetContentSize r.content
    · obtain ⟨c1, c2, c3, c4, c5, c6⟩ := ih (i + 1) st
      simp only [processBatch, if_pos h1]
      refine ⟨?_, c2, c3, ?_, ?_, c6⟩
      · simp only [List.length_cons]
        omega
      · intro f hf
        rcases List.mem_cons.mp hf with hh | ht
        · refine ⟨0, by simp, ?_, Or.inl (by rw [hh])⟩
          rw [hh]
          simp
        · obtain ⟨j, hj, hc, hr⟩ := c4 f ht
          exact ⟨j + 1, by simpa using Nat.succ_lt_succ hj, by simpa using hc, hr⟩
      · intro j hj hacc hok
        cases j with
        | zero =>
          rw [List.getElem_cons_zero] at hacc
          exact absurd hacc.1 (by omega)
        | succ j2 =>
          rw [List.getElem_cons_succ] at hacc
          have hsh : i + (j2 + 1) = (i + 1) + j2 := by omega
          rw [hsh] at hok
          exact c5 j2 (by simpa using hj) hacc hok
    · by_cases h2 : (r.ty != "" && !IsValidContentType r.ty) = true
      · obtain ⟨c1, c2, c3, c4, c5, c6⟩ := ih (i + 1) st
        simp only [processBatch, if_neg h1, if_pos h2]
        refine ⟨?_, c2, c3, ?_, ?_, c6⟩
        · simp only [List.length_cons]
          omega
        · intro f hf
          rcases List.mem_cons.mp hf with hh | ht
          · refine ⟨0, by simp, ?_, Or.inr (Or.inl (by rw [hh]))⟩
            rw [hh]
            simp
          · obtain ⟨j, hj, hc, hr⟩ := c4 f ht
            exact ⟨j + 1, by simpa using Nat.succ_lt_succ hj, by simpa using hc, hr⟩
        · intro j hj hacc hok
          cases j with
          | zero =>
            rw [List.getElem_cons_zero] at hacc
            simp only [bne_iff_ne, Bool.and_eq_true, Bool.not_eq_true'] at h2
            rcases hacc.2 with he | he
            · exact absurd he h2.1
            · rw [he] at h2
              exact absurd h2.2 (by simp)
          | succ j2 =>
            rw [List.getElem_cons_succ] at hacc
            have hsh : i + (j2 + 1) = (i + 1) + j2 := by omega
            rw [hsh] at hok
            exact c5 j2 (by simpa using hj) hacc hok
      · by_cases h3 : createOk i = true
        · obtain ⟨c1, c2, c3, c4, c5, c6⟩ := ih (i + 1)
            ⟨st.items ++ [⟨uuidString st.nextID, u, "",
              SanitizeContent r.content, (if r.ty == "" then "text" else r.ty),
              r.timestamp.getD now⟩], st.nextID + 1⟩
          simp only [processBatch, if_neg h1, if_neg h2, if_pos h3]
          refine ⟨?_, ?_, ?_, ?_, ?_, ?_⟩
          · simp only [List.length_cons]
            omega
          · intro x hx
            exact c2 x (List.mem_append.mpr (Or.inl hx))
          · intro x hx
            rcases c3 x hx with hin | hcl
            · rcases List.mem_append.mp hin with hin2 | hin2
              · exact Or.inl hin2
              · rw [List.mem_singleton] at hin2
                subst hin2
                exact Or.inr rfl
            · exact Or.inr hcl
          · intro f hf
            obtain ⟨j, hj, hc, hr⟩ := c4 f hf
            exact ⟨j + 1, by simpa using Nat.succ_lt_succ hj, by simpa using hc, hr⟩
          · intro j hj hacc hok
            cases j with
            | zero =>
              refine ⟨⟨uuidString st.nextID, u, "", SanitizeContent r.content,
                (if r.ty == "" then "text" else r.ty), r.timestamp.getD now⟩,
                c2 _ (List.mem_append.mpr (Or.inr (List.mem_singleton_self _))),
                rfl, rfl, ?_⟩
              rw [List.getElem_cons_zero]
            | succ j2 =>
              rw [List.getElem_cons_succ] at hacc ⊢
              have hsh : i + (j2 + 1) = (i + 1) + j2 := by omega
              rw [hsh] at hok
              exact c5 j2 (by simpa using hj) hacc hok
          · intro u2 cid hcid
            rw [c6 u2 cid hcid]
            show (st.items ++ [_]).filter (fun it => it.userID == u2 && it.clientID == cid)
              = pairRows st u2 cid
            rw [List.filter_append]
            have : ([(⟨uuidString st.nextID, u, "",
                SanitizeContent r.content, (if r.ty == "" then "text" else r.ty),
                r.timestamp.getD now⟩ : ClipboardItem)].filter
                (fun it => it.userID == u2 && it.clientID == cid)) = [] := by
              simp [Ne.symm hcid]
            rw [this, List.append_nil]
            rfl
        · obtain ⟨c1, c2, c3, c4, c5, c6⟩ := ih (i + 1) st
          simp only [processBatch, if_neg h1, if_neg h2, if_neg h3]
          refine ⟨?_, c2, c3, ?_, ?_, c6⟩
          · simp only [List.length_cons]
            omega
          · intro f hf
            rcases List.mem_cons.mp hf with hh | ht
            · refine ⟨0, by simp, ?_, Or.inr (Or.inr (by rw [hh]))⟩
              rw [hh]
              simp
            · obtain ⟨j, hj, hc, hr⟩ := c4 f ht
              exact ⟨j + 1, by simpa using Nat.succ_lt_succ hj, by simpa using hc, hr⟩
          · intro j hj hacc hok
            cases j with
            | zero =>
              rw [Nat.add_zero] at hok
              exact absurd hok h3
            | succ j2 =>
              rw [List.getElem_cons_succ] at hacc
              have hsh : i + (j2 + 1) = (i + 1) + j2 := by omega
              rw [hsh] at hok
              exact c5 j2 (by simpa using hj) hacc hok

/-- C2: batch sync is not atomic.  For every non-empty batch the handler
returns a 200-class BatchSyncResponse whose total equals the number of
requested items, with synced count plus failed count equal to total; every
failed entry carries the 50-rune-truncated content of some requested item
together with one of the three per-item reasons; and every item that
passes validation and whose insert succeeds is persisted regardless of the
failure of any other item. -/
theorem batchSync_partial_not_atomic (maxSize : Nat) (st : SyncState) (u dev : String)
    (reqs : List ItemReq) (now : Int) (createOk : Nat → Bool) (hne : reqs ≠ []) :
    ∃ resp : BatchSyncResponse,
      (batchSync maxSize st u dev reqs now createOk).1 = BatchResult.ok resp ∧
      resp.total = reqs.length ∧
      resp.synced.length + resp.failed.length = resp.total ∧
      (∀ f ∈ resp.failed, ∃ j, ∃ hj : j < reqs.length,
          f.content = TruncateString reqs[j].content 50 ∧
          (f.error = "content too large" ∨ f.error = "invalid content type"
            ∨ f.error = "database error")) ∧
      (∀ j, ∀ hj : j < reqs.length,
          BatchAccepted maxSize reqs[j] → createOk j = true →
          ∃ x ∈ (batchSync maxSize st u dev reqs now createOk).2.items,
            x.userID = u ∧ x.clientID = "" ∧
            x.content = SanitizeContent reqs[j].content) := by
  have hlen : ¬((reqs.length == 0) = true) := by
    simp only [beq_iff_eq, List.length_eq_zero]
    exact hne
  obtain ⟨hcount, hmono, hnew, hfail, hpersist, hpinv⟩ :=
    processBatch_spec maxSize u now createOk reqs 0 st
  refine ⟨⟨(processBatch maxSize u now createOk 0 st reqs).1,
           (processBatch maxSize u now createOk 0 st reqs).2.1, reqs.length⟩,
    ?_, rfl, ?_, hfail, ?_⟩
  · simp only [batchSync, if_neg hlen]
  · exact hcount
  · intro j hj hacc hok
    have hres := hpersist j hj hacc (by simpa using hok)
    rw [show (batchSync maxSize st u dev reqs now createOk).2
        = (processBatch maxSize u now createOk 0 st reqs).2.2 from by
      simp only [batchSync, if_neg hlen]]
    exact hres

/-- Witness for C2: the spec's 3-item batch (middle item exceeds the max
size 5) yields synced count 2, failed count 1, total 3, with the failed
entry carrying the truncated content and reason, and both valid items
persisted. -/
theorem batchSync_partial_not_atomic_witness :
    (([⟨"ab", "", none⟩, ⟨"toolongcontent", "", none⟩, ⟨"cd", "text", some 3⟩]
        : List ItemReq) ≠ []) ∧
    (∃ resp : BatchSyncResponse,
      (batchSync 5 ⟨[], 0⟩ "alice" "devX"
          [⟨"ab", "", none⟩, ⟨"toolongcontent", "", none⟩, ⟨"cd", "text", some 3⟩]
          0 (fun _ => true)).1 = BatchResult.ok resp ∧
      resp.total = ([⟨"ab", "", none⟩, ⟨"toolongcontent", "", none⟩,
          ⟨"cd", "text", some 3⟩] : List ItemReq).length ∧
      resp.synced.length + resp.failed.length = resp.total ∧
      (∀ f ∈ resp.failed, ∃ j, ∃ hj : j < ([⟨"ab", "", none⟩, ⟨"toolongcontent", "", none⟩,
          ⟨"cd", "text", some 3⟩] : List ItemReq).length,
          f.content = TruncateString ([⟨"ab", "", none⟩, ⟨"toolongcontent", "", none⟩,
            ⟨"cd", "text", some 3⟩] : List ItemReq)[j].content 50 ∧
          (f.error = "content too large" ∨ f.error = "invalid content type"
            ∨ f.error = "database error")) ∧
      (∀ j, ∀ hj : j < ([⟨"ab", "", none⟩, ⟨"toolongcontent", "", none⟩,
          ⟨"cd", "text", some 3⟩] : List ItemReq).length,
          BatchAccepted 5 ([⟨"ab", "", none⟩, ⟨"toolongcontent", "", none⟩,
            ⟨"cd", "text", some 3⟩] : List ItemReq)[j] → (fun _ => true) j = true →
          ∃ x ∈ (batchSync 5 ⟨[], 0⟩ "alice" "devX"
              [⟨"ab", "", none⟩, ⟨"toolongcontent", "", none⟩, ⟨"cd", "text", some 3⟩]
              0 (fun _ => true)).2.items,
            x.userID = "alice" ∧ x.clientID = "" ∧
            x.content = SanitizeContent ([⟨"ab", "", none⟩, ⟨"toolongcontent", "", none⟩,
              ⟨"cd", "text", some 3⟩] : List ItemReq)[j].content)) ∧
    ((batchSync 5 ⟨[], 0⟩ "alice" "devX"
        [⟨"ab", "", none⟩, ⟨"toolongcontent", "", none⟩, ⟨"cd", "text", some 3⟩]
        0 (fun _ => true)).1
      = BatchResult.ok ⟨[⟨uuidString 0, "ab", "text", 0⟩, ⟨uuidString 1, "cd", "text", 3⟩],
          [⟨"toolongcontent", "content too large"⟩], 3⟩) :=
  ⟨by decide,
   batchSync_partial_not_atomic 5 ⟨[], 0⟩ "alice" "devX"
     [⟨"ab", "", none⟩, ⟨"toolongcontent", "", none⟩, ⟨"cd", "text", some 3⟩]
     0 (fun _ => true) (by decide),
   by decide⟩

/-- C10: a batch sync request with an empty item list is rejected with the
"empty request" validation error before any store access; the store is
returned unchanged. -/
theorem batchSync_empty_rejected (maxSize : Nat) (st : SyncState) (u dev : String)
    (now : Int) (createOk : Nat → Bool) :
    batchSync maxSize st u dev [] now createOk
      = (BatchResult.badRequest "empty request" "no items to sync", st) := rfl

/-- C9: items created through single create or batch sync always carry an
empty client device id (the batch request's device_id is never copied onto
the created rows — the result does not depend on it at all), so for every
non-empty client device id the rows a single-item sync lookup can match are
exactly the same before and after such calls. -/
theorem created_rows_have_empty_client_id (maxSize : Nat) (st : SyncState)
    (u u2 dev dev2 cid : String) (req : ItemReq) (reqs : List ItemReq) (now : Int)
    (dbOk : Bool) (createOk : Nat → Bool) (hcid : cid ≠ "") :
    (∀ it ∈ (createItem maxSize st u req now dbOk).2.items,
        it ∈ st.items ∨ it.clientID = "") ∧
    (∀ it ∈ (batchSync maxSize st u dev reqs now createOk).2.items,
        it ∈ st.items ∨ it.clientID = "") ∧
    batchSync maxSize st u dev reqs now createOk
      = batchSync maxSize st u dev2 reqs now createOk ∧
    pairRows (createItem maxSize st u req now dbOk).2 u2 cid = pairRows st u2 cid ∧
    pairRows (batchSync maxSize st u dev reqs now createOk).2 u2 cid
      = pairRows st u2 cid := by
  refine ⟨?_, ?_, rfl, ?_, ?_⟩
  · intro it hit
    simp only [createItem] at hit
    split at hit
    · exact Or.inl hit
    · split at hit
      · exact Or.inl hit
      · split at hit
        · exact Or.inl hit
        · split at hit
          · rcases List.mem_append.mp hit with h | h
            · exact Or.inl h
            · rw [List.mem_singleton] at h
              subst h
              exact Or.inr rfl
          · exact Or.inl hit
  · intro it hit
    by_cases hreq : (reqs.length == 0) = true
    · simp only [batchSync, if_pos hreq] at hit
      exact Or.inl hit
    · simp only [batchSync, if_neg hreq] at hit
      exact (processBatch_spec maxSize u now createOk reqs 0 st).2.2.1 it hit
  · simp only [createItem]
    split
    · rfl
    · split
      · rfl
      · split
        · rfl
        · split
          · show pairRows ⟨st.items ++ [_], st.nextID + 1⟩ u2 cid = pairRows st u2 cid
            show (st.items ++ [_]).filter (fun it => it.userID == u2 && it.clientID == cid)
              = pairRows st u2 cid
            rw [List.filter_append]
            have hone : ([(⟨uuidString st.nextID, u, "", SanitizeContent req.content,
                (if req.ty == "" then "text" else req.ty),
                req.timestamp.getD now⟩ : ClipboardItem)].filter
                (fun it => it.userID == u2 && it.clientID == cid)) = [] := by
              simp [Ne.symm hcid]
            rw [hone, List.append_nil]
            rfl
          · rfl
  · by_cases hreq : (reqs.length == 0) = true
    · simp only [batchSync, if_pos hreq]
    · simp only [batchSync, if_neg hreq]
      exact (processBatch_spec maxSize u now createOk reqs 0 st).2.2.2.2.2 u2 cid hcid

/-- Witness for C9 on a store already holding a (alice, dev-9) row. -/
theorem created_rows_have_empty_client_id_witness :
    ("dev-9" : String) ≠ "" ∧
    ((∀ it ∈ (createItem 10 ⟨[⟨uuidString 0, "alice", "dev-9", "x", "text", 0⟩], 1⟩
        "alice" ⟨"y", "", none⟩ 0 true).2.items,
        it ∈ (⟨[⟨uuidString 0, "alice", "dev-9", "x", "text", 0⟩], 1⟩ : SyncState).items
          ∨ it.clientID = "") ∧
     (∀ it ∈ (batchSync 10 ⟨[⟨uuidString 0, "alice", "dev-9", "x", "text", 0⟩], 1⟩
        "alice" "d1" [⟨"z", "", none⟩] 0 (fun _ => true)).2.items,
        it ∈ (⟨[⟨uuidString 0, "alice", "dev-9", "x", "text", 0⟩], 1⟩ : SyncState).items
          ∨ it.clientID = "") ∧
     batchSync 10 ⟨[⟨uuidString 0, "alice", "dev-9", "x", "text", 0⟩], 1⟩
        "alice" "d1" [⟨"z", "", none⟩] 0 (fun _ => true)
       = batchSync 10 ⟨[⟨uuidString 0, "alice", "dev-9", "x", "text", 0⟩], 1⟩
        "alice" "d2" [⟨"z", "", none⟩] 0 (fun _ => true) ∧
     pairRows (createItem 10 ⟨[⟨uuidString 0, "alice", "dev-9", "x", "text", 0⟩], 1⟩
        "alice" ⟨"y", "", none⟩ 0 true).2 "alice" "dev-9"
       = pairRows ⟨[⟨uuidString 0, "alice", "dev-9", "x", "text", 0⟩], 1⟩ "alice" "dev-9" ∧
     pairRows (batchSync 10 ⟨[⟨uuidString 0, "alice", "dev-9", "x", "text", 0⟩], 1⟩
        "alice" "d1" [⟨"z", "", none⟩] 0 (fun _ => true)).2 "alice" "dev-9"
       = pairRows ⟨[⟨uuidString 0, "alice", "dev-9", "x", "text", 0⟩], 1⟩ "alice" "dev-9") :=
  ⟨by decide,
   created_rows_have_empty_client_id 10 ⟨[⟨uuidString 0, "alice", "dev-9", "x", "text", 0⟩], 1⟩
     "alice" "alice" "d1" "d2" "dev-9" ⟨"y", "", none⟩ [⟨"z", "", none⟩] 0 true
     (fun _ => true) (by decide)⟩

end Clipboard
